import Mathlib

/-!
Verification of `google/genai/_api_client.py` (BaseApiClient): a shallow
embedding of its pure request-building, option-merging, URL-joining,
stream-decoding, retry, upload-protocol and credential-locking logic,
with theorems checking the natural-language specification against it.

Python strings are modelled as Lean `String`; all character-level
operations are defined on the underlying `List Char` so that they are
kernel-computable.  Python `dict`s (insertion-ordered) are modelled as
association lists `List (String × α)` with first-occurrence lookup and
Python's `{**a, **b}` merge semantics.
-/

/-- Python `s.startswith(p)` on our string model. -/
def str_starts_with (s p : String) : Bool :=
  p.data.isPrefixOf s.data

/-- Python `s.endswith(p)` for a single-character suffix test is all we
need; general suffix test via reversed lists. -/
def str_ends_with (s p : String) : Bool :=
  p.data.reverse.isPrefixOf s.data.reverse

/-- Python `s[n:]` (drop the first `n` characters). -/
def str_drop (s : String) (n : Nat) : String :=
  ⟨s.data.drop n⟩

/-- Python `s[:-1]` (drop the last character). -/
def str_drop_last (s : String) : String :=
  ⟨s.data.dropLast⟩

/-- True when `sub` occurs as a contiguous run inside `l`. -/
def char_run_inside (sub : List Char) : List Char → Bool
  | [] => sub.isEmpty
  | c :: rest => sub.isPrefixOf (c :: rest) || char_run_inside sub rest

/-- Python `sub in s` (substring containment), used by the telemetry
header append. -/
def str_contains_sub (s sub : String) : Bool :=
  char_run_inside sub.data s.data

/-- Python truthiness of an optional string: `None` and `''` are falsy. -/
def py_truthy (v : Option String) : Bool :=
  match v with
  | none => false
  | some s => !s.data.isEmpty

/-- First-occurrence lookup in an insertion-ordered dict,
i.e. Python `d.get(k)`. -/
def dict_get (d : List (String × α)) (k : String) : Option α :=
  match d with
  | [] => none
  | (k', v) :: rest => if k' = k then some v else dict_get rest k

/-- Python `k in d`. -/
def dict_has (d : List (String × α)) (k : String) : Bool :=
  (dict_get d k).isSome

/-- Python `d[k] = v` on an insertion-ordered dict: update the existing
key in place, else append at the end. -/
def dict_set (d : List (String × α)) (k : String) (v : α) : List (String × α) :=
  match d with
  | [] => [(k, v)]
  | (k', v') :: rest =>
      if k' = k then (k, v) :: rest else (k', v') :: dict_set rest k v

/-- Python `{**a, **b}`: start from `a`, then insert every entry of `b`
in order (existing keys updated in place, new keys appended). -/
def dict_merge (a b : List (String × α)) : List (String × α) :=
  b.foldl (fun acc p => dict_set acc p.1 p.2) a

/-- Python `del d[k]` restricted to the bulk form used by the source:
remove every entry whose key satisfies `p` (the source first collects
`keys_to_delete` and then deletes them one by one, which on a dict
without duplicate keys equals this filter). -/
def dict_delete_keys (d : List (String × α)) (p : String → Bool) : List (String × α) :=
  d.filter (fun e => !p e.1)

/- ### `_join_url_path` (src/google/genai/_api_client.py lines 168-176)

The source parses the base URL with `urllib.parse.urlparse`, strips one
trailing slash from the parsed path, strips one leading slash from the
joined path, and re-assembles with `urlunparse`.  We model the fragment
of `urlparse` exercised here: URLs of the shape `scheme://netloc[path]`
with empty params/query/fragment. -/

/-- The components of a parsed URL that `_join_url_path` uses. -/
structure UrlParts where
  scheme : String
  netloc : String
  path : String
  deriving DecidableEq, Repr

/-- Split a character list at the first occurrence of `"://"`, returning
the scheme characters and the remainder, as `urlparse` does for an URL
that carries a scheme. -/
def splitScheme : List Char → Option (List Char × List Char)
  | [] => none
  | c :: rest =>
      if c = ':' then
        match rest with
        | '/' :: '/' :: tail => some ([], tail)
        | _ => none
      else
        match splitScheme rest with
        | none => none
        | some (sch, tail) => some (c :: sch, tail)

/-- Split the post-scheme part at the first `'/'`: everything before is
the network location, the rest (slash included) is the path. -/
def splitNetloc : List Char → List Char × List Char
  | [] => ([], [])
  | c :: rest =>
      if c = '/' then ([], c :: rest)
      else
        let (n, p) := splitNetloc rest
        (c :: n, p)

/-- Model of `urllib.parse.urlparse` restricted to the inputs this
module produces: `scheme://netloc[path]` URLs with no params, query or
fragment; a string without a `"://"` separator parses, as in Python,
with empty scheme and netloc and the whole string as path. -/
def urlparse (s : String) : UrlParts :=
  match splitScheme s.data with
  | none => ⟨"", "", s⟩
  | some (sch, rest) =>
      let (n, p) := splitNetloc rest
      ⟨⟨sch⟩, ⟨n⟩, ⟨p⟩⟩

/-- Model of `urllib.parse.urlunparse` on the same fragment. -/
def urlunparse (u : UrlParts) : String :=
  if u.scheme.data.isEmpty && u.netloc.data.isEmpty then u.path
  else u.scheme ++ "://" ++ u.netloc ++ u.path

/-- Embedding of `_join_url_path(base_url, path)`: strip one trailing
slash from the parsed base path, one leading slash from `path`, and glue
with a single `'/'`. -/
def join_url_path (base_url path : String) : String :=
  let parsed_base := urlparse base_url
  let base_path :=
    if str_ends_with parsed_base.path "/" then str_drop_last parsed_base.path
    else parsed_base.path
  let path' := if str_starts_with path "/" then str_drop path 1 else path
  urlunparse { parsed_base with path := base_path ++ "/" ++ path' }

/- ### `HttpResponse.segments` (lines 253-270), live-stream branch

The branch taken for a live line-oriented stream: for each line, skip it
if empty; otherwise strip a literal `"data: "` lead if present and JSON
decode.  The JSON decoder is abstract (it lives outside this module):
the function is parametric in `loads`. -/

/-- Strip the literal `"data: "` lead from a line when present
(lines 268-269 of the source). -/
def strip_data_tag (chunk : String) : String :=
  if str_starts_with chunk "data: " then str_drop chunk 6 else chunk

/-- The live-stream branch of `HttpResponse.segments`: each truthy
(non-empty) line is stripped of the `"data: "` lead and decoded; falsy
lines are skipped. -/
def segments_stream {J : Type} (loads : String → J) (lines : List String) : List J :=
  lines.filterMap (fun chunk =>
    if chunk.data.isEmpty then none
    else some (loads (strip_data_tag chunk)))

/-- The replay/non-streaming branch of `HttpResponse.segments`
(lines 254-257): every chunk yields a record, an empty chunk yields the
empty record `{}` (here: `loads` applied is replaced by a default). -/
def segments_list {J : Type} (loads : String → J) (emptyRecord : J)
    (chunks : List String) : List J :=
  chunks.map (fun chunk => if chunk.data.isEmpty then emptyRecord else loads chunk)

/- ### `_patch_http_options` (lines 132-157) and the telemetry header
append `_append_library_version_headers` (lines 109-129)

`HttpOptions` itself lives in the excluded configuration-schema
collaborator (`.types`); its fields are modelled from the spec's
EffectiveConfig: base_url, api_version, headers, timeout (ms),
retry policy, extra_body, client backend args. -/

/-- A JSON-like structured value, for request bodies and `extra_body`. -/
inductive JVal where
  | str (s : String)
  | num (n : Int)
  | obj (fields : List (String × JVal))
  deriving Repr

/-- Modelled from the spec: the retry-policy options schema
(`HttpRetryOptions`, from the excluded configuration collaborator):
max attempts, retriable status codes, delays, exponent, jitter. -/
structure HttpRetryOptionsM where
  attempts : Option Nat := none
  initial_delay : Option Nat := none
  max_delay : Option Nat := none
  exp_base : Option Nat := none
  jitter : Option Nat := none
  http_status_codes : Option (List Nat) := none
  deriving DecidableEq, Repr

/-- Modelled from the spec: the `HttpOptions` schema (EffectiveConfig of
§3): header map, base URL, API version, timeout in milliseconds, client
backend args, extra body fields, retry policy.  All fields optional
(`None` = inherit). -/
structure HttpOptionsM where
  headers : Option (List (String × String)) := none
  base_url : Option String := none
  api_version : Option String := none
  timeout : Option Nat := none
  client_args : Option (List (String × String)) := none
  async_client_args : Option (List (String × String)) := none
  extra_body : Option (List (String × JVal)) := none
  retry_options : Option HttpRetryOptionsM := none

/-- Embedding of `_append_library_version_headers(headers)`: prepend the telemetry
token `v` to `user-agent` and `x-goog-api-client` when not already a
substring, else install it.  `v` abstracts the version header value
(`google-genai-sdk/<version> gl-python/<python-version>`), which
depends on the excluded version collaborator. -/
def append_library_version_headers (v : String)
    (headers : List (String × String)) : List (String × String) :=
  let h1 :=
    match dict_get headers "user-agent" with
    | some ua =>
        if str_contains_sub ua v then headers
        else dict_set headers "user-agent" (v ++ " " ++ ua)
    | none => dict_set headers "user-agent" v
  match dict_get h1 "x-goog-api-client" with
  | some xc =>
      if str_contains_sub xc v then h1
      else dict_set h1 "x-goog-api-client" (v ++ " " ++ xc)
  | none => dict_set h1 "x-goog-api-client" v

/-- Embedding of `_patch_http_options(options, patch_options)`: headers merge key-wise
(`{**options_headers, **patch_options_headers}`), every other field takes
the patch value when it is not `None`, else the base value; finally the
telemetry headers are appended to the (always non-`None`) merged header
dict. -/
def patch_http_options (v : String) (options patch_options : HttpOptionsM) :
    HttpOptionsM :=
  let options_headers := options.headers.getD []
  let patch_options_headers := patch_options.headers.getD []
  let merged := dict_merge options_headers patch_options_headers
  { headers := some (append_library_version_headers v merged)
    base_url := (patch_options.base_url).orElse (fun _ => options.base_url)
    api_version := (patch_options.api_version).orElse (fun _ => options.api_version)
    timeout := (patch_options.timeout).orElse (fun _ => options.timeout)
    client_args := (patch_options.client_args).orElse (fun _ => options.client_args)
    async_client_args :=
      (patch_options.async_client_args).orElse (fun _ => options.async_client_args)
    extra_body := (patch_options.extra_body).orElse (fun _ => options.extra_body)
    retry_options := (patch_options.retry_options).orElse (fun _ => options.retry_options) }

/- ### `_retry_args` (lines 342-372) and the retry orchestrator

`_retry_args` builds the arguments handed to the `tenacity` retrying
constructors; the attempt loop itself is the `tenacity` library
(external).  The loop is modelled from the spec (§4.4): execute; if the
result's status code is retriable and attempts remain, retry; at the
stop bound the retry-error callback returns the last outcome's result. -/

/-- Default retry constants (lines 327-339). -/
def RETRY_ATTEMPTS : Nat := 3

/-- Default retriable HTTP status codes (lines 332-339). -/
def RETRY_HTTP_STATUS_CODES : List Nat := [408, 429, 500, 502, 503, 504]

/-- Python `x or default` where `x` is an optional number
(`None` and `0` are falsy). -/
def py_or_nat (v : Option Nat) (d : Nat) : Nat :=
  match v with
  | none => d
  | some n => if n = 0 then d else n

/-- Python `x or default` where `x` is an optional list
(`None` and the empty collection are falsy). -/
def py_or_codes (v : Option (List Nat)) (d : List Nat) : List Nat :=
  match v with
  | none => d
  | some l => if l.isEmpty then d else l

/-- A wire response as seen by the retry predicate: only its status code
matters (`lambda response: response.status_code in retriable_codes`). -/
structure ResponseM where
  status_code : Nat
  deriving DecidableEq, Repr

/-- The arguments `_retry_args` passes to the tenacity constructor:
the stop bound, the result predicate, and whether a retry-error
callback (returning the last outcome's result) was installed. -/
structure RetryConfigM where
  stop_after : Nat
  retriable : ResponseM → Bool
  has_retry_error_callback : Bool

/-- Embedding of `_retry_args(options)`: `None` means the never-retry strategy
(stop after 1 attempt, no result predicate, no callback); otherwise
attempts/codes fall back to the defaults under Python `or`. -/
def retry_args (options : Option HttpRetryOptionsM) : RetryConfigM :=
  match options with
  | none =>
      { stop_after := 1
        retriable := fun _ => false
        has_retry_error_callback := false }
  | some o =>
      let retriable_codes := py_or_codes o.http_status_codes RETRY_HTTP_STATUS_CODES
      { stop_after := py_or_nat o.attempts RETRY_ATTEMPTS
        retriable := fun response => retriable_codes.contains response.status_code
        has_retry_error_callback := true }

/-- How a tenacity run ends: a value returned to the caller, or a
retry-exhaustion wrapper raised (only possible with no callback). -/
inductive RetryOutcome (α : Type) where
  | returned (a : α)
  | exhausted (a : α)
  deriving DecidableEq, Repr

/-- Modelled from the spec: the tenacity attempt loop.  `op n` is the
`n`-th execution (1-based) of the wrapped operation; `remaining` is the
number of further attempts the stop strategy allows.  Returns the index
of the last attempt and its result. -/
def tenacity_attempts {α : Type} (retriable : α → Bool) (op : Nat → α) :
    Nat → Nat → Nat × α
  | n, 0 => (n, op n)
  | n, remaining + 1 =>
      let r := op n
      if retriable r then tenacity_attempts retriable op (n + 1) remaining
      else (n, r)

/-- Modelled from the spec: one tenacity run.  Attempts run until the
result is not retriable or `stop_after` attempts are spent; on
exhaustion with a still-retriable result the retry-error callback (when
installed) returns the last attempt's result instead of raising the
retry-exhaustion wrapper.  Returns (number of executions, outcome). -/
def tenacity_run {α : Type} (stop_after : Nat) (retriable : α → Bool)
    (has_callback : Bool) (op : Nat → α) : Nat × RetryOutcome α :=
  let (n, r) := tenacity_attempts retriable op 1 (stop_after - 1)
  if retriable r then
    (n, if has_callback then .returned r else .exhausted r)
  else (n, .returned r)

/-- Embedding of `BaseApiClient._request` (lines 875-880): run the wrapped
single-request operation under the retry configuration built by
`_retry_args` from the client's retry options. -/
def client_request (retry_options : Option HttpRetryOptionsM)
    (op : Nat → ResponseM) : Nat × RetryOutcome ResponseM :=
  let cfg := retry_args retry_options
  tenacity_run cfg.stop_after cfg.retriable cfg.has_retry_error_callback op

/- ### `_build_request` (lines 743-827) and its helpers -/

/-- Embedding of `_get_timeout_in_seconds(timeout)` (lines 201-211): a falsy timeout
(None or 0 ms) maps to `None`.  We keep the millisecond value and
convert at the point of use, so the model stays on naturals. -/
def get_timeout_in_seconds (timeout : Option Nat) : Option Nat :=
  match timeout with
  | none => none
  | some ms => if ms = 0 then none else some ms

/-- Value of `math.ceil(ms / 1000.0)` for a millisecond count. -/
def seconds_ceil (ms : Nat) : Nat :=
  (ms + 999) / 1000

/-- Embedding of `_populate_server_timeout_header(headers, timeout_in_seconds)`
(lines 160-165): install `X-Server-Timeout: ceil(seconds)` when a
timeout is present and the header is not. -/
def populate_server_timeout_header (headers : List (String × String))
    (timeout_ms : Option Nat) : List (String × String) :=
  match timeout_ms with
  | none => headers
  | some ms =>
      if dict_has headers "X-Server-Timeout" then headers
      else dict_set headers "X-Server-Timeout" (toString (seconds_ceil ms))

/- Modelled from the spec: `_common.recursive_dict_update` (from the
excluded `_common` collaborator) — deep-merge `update` into `target`:
an update value that is an object, meeting an object already present
under the same key, merges recursively; any other update entry
overwrites or appends. -/
mutual

/-- Merge the update value `v` over the present value `w`: objects meet
objects recursively, anything else is overwritten by `v`. -/
def jval_merge (w : JVal) : JVal → JVal
  | JVal.obj u =>
      match w with
      | JVal.obj o => JVal.obj (recursive_dict_update o u)
      | _ => JVal.obj u
  | v => v

/-- Deep-merge the `update` dict into `target` (see the comment on the
surrounding group). -/
def recursive_dict_update (target : List (String × JVal)) :
    List (String × JVal) → List (String × JVal)
  | [] => target
  | (k, v) :: rest =>
      let target' :=
        match dict_get target k with
        | some w => dict_set target k (jval_merge w v)
        | none => dict_set target k v
      recursive_dict_update target' rest

end

/-- The identity-and-endpoint state of a constructed `BaseApiClient`
that `_build_request` consults. -/
structure ClientState where
  vertexai : Bool
  api_key : Option String
  project : Option String
  location : Option String
  http_options : HttpOptionsM

/-- The ways `_build_request` can raise before any network activity. -/
inductive BuildError where
  | base_url_missing
  | ephemeral_token
  | headers_missing
  deriving DecidableEq, Repr

/-- The `HttpRequest` dataclass (lines 214-220); `timeout` keeps the
millisecond count (the source stores seconds = ms / 1000.0). -/
structure HttpRequestM where
  method : String
  url : String
  headers : List (String × String)
  data : List (String × JVal)
  timeout : Option Nat

/-- Embedding of `BaseApiClient._build_request(http_method, path, request_dict,
http_options)`.  Returns the raised error or the built request, paired
with the caller-visible state of `request_dict` at exit (the source
mutates the caller's dict in place: underscore-keyed entries are
deleted first, and `extra_body` is deep-merged into it before the
ephemeral-token check).  `v` abstracts the telemetry version header
value. -/
def build_request (v : String) (client : ClientState) (http_method : String)
    (path : String) (request_dict : List (String × JVal))
    (http_options : Option HttpOptionsM) :
    Except BuildError HttpRequestM × List (String × JVal) :=
  -- Remove all special dict keys such as _url and _query (lines 750-753).
  let request_dict := dict_delete_keys request_dict (fun k => str_starts_with k "_")
  -- Patch the http options with the user provided settings (lines 754-766).
  let patched_http_options :=
    match http_options with
    | some o => patch_http_options v client.http_options o
    | none => client.http_options
  -- Skip adding project and locations when getting Vertex AI base models
  -- (lines 767-781).
  let query_vertex_base_models :=
    client.vertexai && http_method = "get" &&
      str_starts_with path "publishers/google/models"
  let path :=
    if client.vertexai && !str_starts_with path "projects/" &&
        !query_vertex_base_models && !py_truthy client.api_key then
      "projects/" ++ client.project.getD "None" ++ "/locations/" ++
        client.location.getD "None" ++ "/" ++ path
    else path
  let versioned_path :=
    match patched_http_options.api_version with
    | none => "/" ++ path
    | some api_version => api_version ++ "/" ++ path
  if !py_truthy patched_http_options.base_url then
    (.error .base_url_missing, request_dict)
  else
    let base_url := patched_http_options.base_url.getD ""
    let request_dict :=
      match patched_http_options.extra_body with
      | some eb => if eb.isEmpty then request_dict
                   else recursive_dict_update request_dict eb
      | none => request_dict
    let url := join_url_path base_url versioned_path
    if py_truthy client.api_key &&
        str_starts_with (client.api_key.getD "") "auth_tokens/" then
      (.error .ephemeral_token, request_dict)
    else
      let timeout_in_seconds := get_timeout_in_seconds patched_http_options.timeout
      match patched_http_options.headers with
      | none => (.error .headers_missing, request_dict)
      | some headers =>
          let headers := populate_server_timeout_header headers timeout_in_seconds
          (.ok { method := http_method
                 url := url
                 headers := headers
                 data := request_dict
                 timeout := timeout_in_seconds }, request_dict)

/- ### `BaseApiClient.__init__` (lines 419-566): construction-time
validation, mode selection and base-URL choice -/

/-- Python `str.lower()`. -/
def str_lower (s : String) : String :=
  ⟨s.data.map Char.toLower⟩

/-- Python `str.strip()` (whitespace at both ends). -/
def str_strip (s : String) : String :=
  ⟨((s.data.dropWhile Char.isWhitespace).reverse.dropWhile Char.isWhitespace).reverse⟩

/-- Python `a or b` on optional strings (`None`/`''` falsy). -/
def py_or_str (a b : Option String) : Option String :=
  if py_truthy a then a else b

/-- The environment variables `__init__` consults. -/
structure EnvVars where
  google_genai_use_vertexai : Option String := none
  google_cloud_project : Option String := none
  google_cloud_location : Option String := none
  google_api_key : Option String := none
  gemini_api_key : Option String := none

/-- Embedding of `_get_env_api_key()` (lines 92-106): `GOOGLE_API_KEY` wins over
`GEMINI_API_KEY`; an empty string collapses to `None`. -/
def get_env_api_key (env : EnvVars) : Option String :=
  let v := py_or_str env.google_api_key env.gemini_api_key
  if py_truthy v then v else none

/-- The `ValueError`s `__init__` can raise before any network I/O. -/
inductive InitError where
  | project_api_key_exclusive
  | credentials_api_key_exclusive
  | project_location_or_key_required
  | missing_key_inputs
  deriving DecidableEq, Repr

/-- Outcome of client construction.  `needs_adc` marks the point where
the source calls `_load_auth` (ambient application-default-credential
discovery, an external collaborator): the model stops there. -/
inductive InitResult where
  | ok (c : ClientState)
  | error (e : InitError)
  | needs_adc

/-- The tail of `__init__` (lines 538-551): default headers, API key
strip + `x-goog-api-key` header, then the user-supplied options patched
in (or just the telemetry headers appended). -/
def init_finalize (v : String) (vertexai : Bool)
    (api_key project location : Option String)
    (base_url api_version : String)
    (http_options_arg : Option HttpOptionsM) : InitResult :=
  let base_options : HttpOptionsM :=
    { base_url := some base_url
      api_version := some api_version
      headers := some [("Content-Type", "application/json")] }
  let stripped_key := if py_truthy api_key then some (str_strip (api_key.getD "")) else api_key
  let base_options :=
    if py_truthy api_key then
      { base_options with
          headers := some (dict_set (base_options.headers.getD [])
            "x-goog-api-key" (str_strip (api_key.getD ""))) }
    else base_options
  let final_options :=
    match http_options_arg with
    | some o => patch_http_options v base_options o
    | none =>
        { base_options with
            headers := some (append_library_version_headers v
              (base_options.headers.getD [])) }
  .ok { vertexai := vertexai
        api_key := stripped_key
        project := project
        location := location
        http_options := final_options }

/-- Embedding of `BaseApiClient.__init__`: explicit-argument validation, environment
fallback, Vertex express-mode precedence, endpoint selection.  The
`http_options` dict-shape validation (lines 450-458) belongs to the
excluded configuration-schema collaborator: the model receives the
already-structured options. -/
def init_client (v : String) (vertexai_arg : Option Bool)
    (api_key_arg : Option String) (credentials_arg : Bool)
    (project_arg location_arg : Option String)
    (http_options_arg : Option HttpOptionsM) (env : EnvVars) : InitResult :=
  let vertexai :=
    match vertexai_arg with
    | some b => b
    | none =>
        let flag := str_lower (env.google_genai_use_vertexai.getD "0")
        flag = "true" || flag = "1"
  -- Validate explicitly set initializer values (lines 436-448).
  if (py_truthy project_arg || py_truthy location_arg) && py_truthy api_key_arg then
    .error .project_api_key_exclusive
  else if credentials_arg && py_truthy api_key_arg then
    .error .credentials_api_key_exclusive
  else
    -- Retrieve implicitly set values from the environment (lines 460-466).
    let env_project := env.google_cloud_project
    let env_location := env.google_cloud_location
    let env_api_key := get_env_api_key env
    let project := py_or_str project_arg env_project
    let location := py_or_str location_arg env_location
    let api_key := py_or_str api_key_arg env_api_key
    if vertexai then
      -- Vertex AI express-mode precedence rules (lines 483-512).
      let (api_key, project, location) :=
        if credentials_arg then (none, project, location)
        else if (py_truthy env_location || py_truthy env_project) &&
            py_truthy api_key_arg then
          (api_key, none, none)
        else if (py_truthy project_arg || py_truthy location_arg) &&
            py_truthy env_api_key then
          (none, project, location)
        else if (py_truthy env_location || py_truthy env_project) &&
            py_truthy env_api_key then
          (none, project, location)
        else (api_key, project, location)
      if !py_truthy project && !py_truthy api_key then
        .needs_adc
      else if !((py_truthy project && py_truthy location) || py_truthy api_key) then
        .error .project_location_or_key_required
      else
        let base_url :=
          if py_truthy api_key || location = some "global" then
            "https://aiplatform.googleapis.com/"
          else
            "https://" ++ location.getD "None" ++ "-aiplatform.googleapis.com/"
        init_finalize v vertexai api_key project location base_url "v1beta1"
          http_options_arg
    else
      if !py_truthy api_key then .error .missing_key_inputs
      else
        init_finalize v vertexai api_key project location
          "https://generativelanguage.googleapis.com/" "v1beta" http_options_arg

/- ### `HttpResponse.__init__` (lines 223-234) -/

/-- The `HttpResponse` object this module constructs.  The constructor
takes headers and the two optional body sources — and no status
argument: `status_code` is assigned the literal `200`. -/
structure HttpResponseM where
  status_code : Nat
  headers : List (String × String)
  response_stream : Option (List String)
  byte_stream : Option (List String)
  deriving DecidableEq, Repr

/-- Embedding of `HttpResponse.__init__(headers, response_stream, byte_stream)`:
hard-codes `self.status_code = 200`. -/
def HttpResponse_init (headers : List (String × String))
    (response_stream : Option (List String))
    (byte_stream : Option (List String)) : HttpResponseM :=
  { status_code := 200
    headers := headers
    response_stream := response_stream
    byte_stream := byte_stream }

/- ### `BaseApiClient._upload_fd` (lines 1078-1155): the resumable
upload state machine

The server is modelled as the list of wire responses it will give to
successive POSTs; each response carries its header dict and body text.
The loop is parameterised by the chunk limit (the source instantiates
the module constant `CHUNK_SIZE = 8 * 1024 * 1024`) and by the
millisecond timeout resolved from the options (lines 1109-1122). -/

/-- Module constant `CHUNK_SIZE` (line 80). -/
def CHUNK_SIZE : Nat := 8 * 1024 * 1024

/-- Module constant `MAX_RETRY_COUNT` (line 81). -/
def MAX_RETRY_COUNT : Nat := 3

/-- One wire response of the upload server. -/
structure UploadResp where
  headers : List (String × String)
  text : String
  deriving DecidableEq, Repr

/-- Value of `response.headers.get('x-goog-upload-status')`. -/
def upload_status (r : UploadResp) : Option String :=
  dict_get r.headers "x-goog-upload-status"

/-- One POST of one chunk, as recorded by the model: the headers the
source builds for it (lines 1123-1128), the fields they were built
from, the number of inner retry attempts the chunk took, and the status
header of the last response received for it. -/
structure ChunkEvent where
  offset : Nat
  command : String
  content_length : Nat
  headers : List (String × String)
  attempts : Nat
  last_status : Option String
  deriving DecidableEq, Repr

/-- The inner per-chunk retry (lines 1129-1142): POST, break as soon as
the response carries a truthy `x-goog-upload-status` header, at most
`MAX_RETRY_COUNT` attempts, the last response kept either way.  Returns
the final response, the unconsumed server responses and the attempt
count; `none` when the modelled server ran out of responses. -/
def upload_inner_retry : Nat → List UploadResp →
    Option (UploadResp × List UploadResp × Nat)
  | _, [] => none
  | 0, _ :: _ => none
  | n + 1, r :: rs =>
      if py_truthy (upload_status r) then some (r, rs, 1)
      else if n = 0 then some (r, rs, 1)
      else
        match upload_inner_retry n rs with
        | none => none
        | some (last, rem, k) => some (last, rem, k + 1)

/-- How `_upload_fd` ends. -/
inductive UploadOutcome where
  /-- The final check passed (`x-goog-upload-status == 'final'`): the
  `HttpResponse` built from the last response is returned. -/
  | ok (resp : HttpResponseM)
  /-- The `ValueError` raised inside the loop (lines 1147-1151): status still
  `active` although `upload_size <= offset`. -/
  | protocol_violation
  /-- The `ValueError` raised after the loop (lines 1153-1154): terminal
  status is not `final`. -/
  | status_not_final
  /-- Model artifact: the modelled server gave fewer responses than the
  client POSTs. -/
  | server_exhausted
  /-- Model artifact: recursion fuel ran out (cannot happen for
  `fuel > number of server responses`). -/
  | fuel_exhausted
  deriving DecidableEq, Repr

/-- The chunk loop of `_upload_fd` (lines 1100-1151), returning the
sequence of chunk POSTs made and the outcome.  `file` is the byte
source (reads are sequential, so the read position equals `offset`). -/
def upload_loop (chunk_limit upload_size : Nat) (file : List Nat)
    (timeout_ms : Option Nat) :
    Nat → Nat → List UploadResp → List ChunkEvent × UploadOutcome
  | 0, _, _ => ([], .fuel_exhausted)
  | fuel + 1, offset, responses =>
      let file_chunk := (file.drop offset).take chunk_limit
      let chunk_size := file_chunk.length
      let upload_command :=
        if chunk_size + offset ≥ upload_size then "upload, finalize" else "upload"
      let upload_headers := populate_server_timeout_header
        [("X-Goog-Upload-Command", upload_command),
         ("X-Goog-Upload-Offset", toString offset),
         ("Content-Length", toString chunk_size)]
        (get_timeout_in_seconds timeout_ms)
      match upload_inner_retry MAX_RETRY_COUNT responses with
      | none =>
          ([{ offset := offset, command := upload_command,
              content_length := chunk_size, headers := upload_headers,
              attempts := responses.length, last_status := none }],
           .server_exhausted)
      | some (response, remaining, k) =>
          let ev : ChunkEvent :=
            { offset := offset, command := upload_command,
              content_length := chunk_size, headers := upload_headers,
              attempts := k, last_status := upload_status response }
          let offset' := offset + chunk_size
          if upload_status response ≠ some "active" then
            -- upload is complete or it has been interrupted (line 1146);
            -- then the final check (lines 1153-1155).
            if upload_status response = some "final" then
              ([ev], .ok (HttpResponse_init response.headers
                (some [response.text]) none))
            else ([ev], .status_not_final)
          else if upload_size ≤ offset' then
            ([ev], .protocol_violation)
          else
            let next := upload_loop chunk_limit upload_size file timeout_ms
              fuel offset' remaining
            (ev :: next.1, next.2)

/-- Embedding of `_upload_fd` itself: start at `offset = 0` with enough fuel that it
can never run out before the modelled server does. -/
def upload_fd (chunk_limit upload_size : Nat) (file : List Nat)
    (timeout_ms : Option Nat) (responses : List UploadResp) :
    List ChunkEvent × UploadOutcome :=
  upload_loop chunk_limit upload_size file timeout_ms
    (responses.length + 1) 0 responses

/- ### `_access_token` (lines 696-712) and `_async_access_token`
(lines 714-741): token refresh under the two per-path locks

Concurrency is modelled as an interleaving transition system.  Each of
`n` callers runs the token-access control flow over a shared state
(token expiry flag, refresh counter, the two locks).  `paths` fixes
which operation each caller invokes.  A sync caller (`_access_token`)
runs its whole body under `self._sync_auth_lock` (a `threading.Lock`,
line 474, taken at line 698), so it heads straight for that lock and
performs its only expiry check inside it.  An async caller
(`_async_access_token`) checks expiry outside the lock (line 729),
acquires `self._async_auth_lock` (an `asyncio.Lock`, line 475, taken
at line 731), and re-checks inside it (double-checked pattern, lines
732-734).  The two locks are independent objects in the source, so the
model keeps them as two separate fields.  `_refresh_auth` is the
atomic refresh step: it increments the refresh counter and makes the
token fresh (a refreshed credential is not expired). -/

/-- Which token-access operation a caller invokes: the blocking
`_access_token` (guarded by the sync lock) or the suspend-capable
`_async_access_token` (guarded by the async lock). -/
inductive LockKind where
  | sync
  | async
  deriving DecidableEq, Repr

/-- Control points of one caller of the token-access operation. -/
inductive RefresherPc where
  | start
  | want_lock
  | locked
  | will_refresh
  | releasing
  | done
  deriving DecidableEq, Repr

/-- The shared state: whether the cached token is expired or absent,
how many underlying refreshes have run, who holds each of the two
per-path locks, and each caller's control point. -/
structure RefreshState (n : Nat) where
  expired : Bool
  refresh_count : Nat
  sync_lock : Option (Fin n)
  async_lock : Option (Fin n)
  pc : Fin n → RefresherPc

/-- The lock used by a caller's own path. -/
def lock_of {n : Nat} (paths : Fin n → LockKind) (s : RefreshState n)
    (i : Fin n) : Option (Fin n) :=
  match paths i with
  | .sync => s.sync_lock
  | .async => s.async_lock

/-- One interleaving step of the token-access state machine; `paths`
fixes each caller's operation, hence which of the two locks it uses. -/
inductive RefreshStep (n : Nat) (paths : Fin n → LockKind) :
    RefreshState n → RefreshState n → Prop
  /-- Async path, outer check (line 729): token expired, head for the
  async lock. -/
  | check_outer_expired (s : RefreshState n) (i : Fin n) :
      paths i = .async → s.pc i = .start → s.expired = true →
      RefreshStep n paths s { s with pc := Function.update s.pc i .want_lock }
  /-- Async path, outer check: token fresh, return it at once. -/
  | check_outer_fresh (s : RefreshState n) (i : Fin n) :
      paths i = .async → s.pc i = .start → s.expired = false →
      RefreshStep n paths s { s with pc := Function.update s.pc i .done }
  /-- Sync path (line 698): the whole body runs under the sync lock, so
  the caller heads for it without an outer check. -/
  | enter_direct (s : RefreshState n) (i : Fin n) :
      paths i = .sync → s.pc i = .start →
      RefreshStep n paths s { s with pc := Function.update s.pc i .want_lock }
  /-- A sync caller acquires `_sync_auth_lock` when free. -/
  | acquire_sync (s : RefreshState n) (i : Fin n) :
      paths i = .sync → s.pc i = .want_lock → s.sync_lock = none →
      RefreshStep n paths s { s with sync_lock := some i
                                     pc := Function.update s.pc i .locked }
  /-- An async caller acquires `_async_auth_lock` when free. -/
  | acquire_async (s : RefreshState n) (i : Fin n) :
      paths i = .async → s.pc i = .want_lock → s.async_lock = none →
      RefreshStep n paths s { s with async_lock := some i
                                     pc := Function.update s.pc i .locked }
  /-- In-lock check, token still expired (line 705 / line 732): this
  caller will refresh. -/
  | check_inner_expired (s : RefreshState n) (i : Fin n) :
      s.pc i = .locked → s.expired = true →
      RefreshStep n paths s { s with pc := Function.update s.pc i .will_refresh }
  /-- In-lock check, the token is fresh again (another caller refreshed
  while this one waited): skip the refresh. -/
  | check_inner_fresh (s : RefreshState n) (i : Fin n) :
      s.pc i = .locked → s.expired = false →
      RefreshStep n paths s { s with pc := Function.update s.pc i .releasing }
  /-- Step `_refresh_auth(self._credentials)` (line 707 / line 734): one
  underlying refresh; the token becomes fresh. -/
  | do_refresh (s : RefreshState n) (i : Fin n) :
      s.pc i = .will_refresh →
      RefreshStep n paths s { s with expired := false
                                     refresh_count := s.refresh_count + 1
                                     pc := Function.update s.pc i .releasing }
  /-- A sync caller leaves the guarded section, releasing the sync
  lock. -/
  | release_sync (s : RefreshState n) (i : Fin n) :
      paths i = .sync → s.pc i = .releasing →
      RefreshStep n paths s { s with sync_lock := none
                                     pc := Function.update s.pc i .done }
  /-- An async caller leaves the guarded section, releasing the async
  lock. -/
  | release_async (s : RefreshState n) (i : Fin n) :
      paths i = .async → s.pc i = .releasing →
      RefreshStep n paths s { s with async_lock := none
                                     pc := Function.update s.pc i .done }

/-- The initial state of the race: the cached token is expired or
absent, no refresh has run, both locks free, every caller about to
enter its token-access operation. -/
def refresh_init (n : Nat) : RefreshState n :=
  { expired := true, refresh_count := 0, sync_lock := none,
    async_lock := none, pc := fun _ => .start }

/-- States reachable from the initial race state under a given path
assignment. -/
def RefreshReachable (n : Nat) (paths : Fin n → LockKind)
    (s : RefreshState n) : Prop :=
  Relation.ReflTransGen (RefreshStep n paths) (refresh_init n) s

/-- The inductive invariant of a single-path race: the token is expired
exactly while no refresh has run; at most one refresh ever runs; any
caller inside the guarded section holds its path's lock; a caller
about to refresh has seen the token expired under its lock; a caller
leaving the guarded section left the token fresh; while the token is
expired some caller has not finished.  (The first two conjuncts are
not preserved under mixed path assignments — see the counterexample.) -/
def RefreshInv {n : Nat} (paths : Fin n → LockKind) (s : RefreshState n) : Prop :=
  (s.expired = true ↔ s.refresh_count = 0) ∧
  s.refresh_count ≤ 1 ∧
  (∀ i, s.pc i = .locked ∨ s.pc i = .will_refresh ∨ s.pc i = .releasing →
    lock_of paths s i = some i) ∧
  (∀ i, s.pc i = .will_refresh → s.expired = true) ∧
  (∀ i, s.pc i = .releasing → s.expired = false) ∧
  (s.expired = true → ∃ i, s.pc i ≠ .done)

/- ### Dictionary lemmas -/

/-- Lookup after `dict_set`: the set key reads back the new value,
every other key is untouched. -/
theorem dict_get_set (d : List (String × α)) (kset q : String) (v : α) :
    dict_get (dict_set d kset v) q = if kset = q then some v else dict_get d q := by
  induction d with
  | nil => simp [dict_set, dict_get]
  | cons hd tl ih =>
      obtain ⟨k', v'⟩ := hd
      by_cases hk : k' = kset
      · subst hk
        by_cases hq : k' = q
        · subst hq
          simp [dict_set, dict_get]
        · simp [dict_set, dict_get, hq]
      · by_cases hq : k' = q
        · subst hq
          have hne : kset ≠ k' := fun hc => hk hc.symm
          simp [dict_set, dict_get, hk, hne]
        · simp [dict_set, dict_get, hk, hq, ih]

/-- A key outside a dict's key list reads as absent. -/
theorem dict_get_eq_none (d : List (String × α)) (q : String)
    (h : q ∉ d.map Prod.fst) : dict_get d q = none := by
  induction d with
  | nil => rfl
  | cons hd tl ih =>
      obtain ⟨k', v'⟩ := hd
      simp only [List.map_cons, List.mem_cons, not_or] at h
      have : k' ≠ q := fun hc => h.1 hc.symm
      simp [dict_get, this, ih h.2]

/-- Lookup in a Python `{**a, **b}` merge: when `b` has no duplicate
keys, a key reads from `b` first, else from `a`. -/
theorem dict_get_merge (a b : List (String × α)) (q : String)
    (h : (b.map Prod.fst).Nodup) :
    dict_get (dict_merge a b) q = (dict_get b q).orElse (fun _ => dict_get a q) := by
  induction b generalizing a with
  | nil => simp [dict_merge, dict_get, Option.orElse]
  | cons hd tl ih =>
      obtain ⟨k, v⟩ := hd
      simp only [List.map_cons, List.nodup_cons] at h
      have step : dict_merge a ((k, v) :: tl) = dict_merge (dict_set a k v) tl := rfl
      rw [step, ih _ h.2]
      by_cases hq : k = q
      · subst hq
        have htl : dict_get tl k = none := dict_get_eq_none tl k h.1
        simp [htl, dict_get, dict_get_set, Option.orElse]
      · simp only [dict_get, if_neg hq, dict_get_set]

/- ### Claim C5: stream decode strips the data lead and skips empty
lines -/

/-- C5: in `HttpResponse.segments` over a live line-oriented stream,
every non-empty line has a literal `"data: "` lead stripped before JSON
decoding and yields exactly one decoded record, empty lines yield
nothing; in particular the lines `["data: {"a":1}", "", "data: {"a":2}"]`
decode to exactly the records of `{"a":1}` and `{"a":2}`. -/
theorem C5_segments_stream_decode {J : Type} (loads : String → J)
    (lines : List String) :
    segments_stream loads lines
      = (lines.filter (fun c => !c.data.isEmpty)).map
          (fun c => loads (strip_data_tag c)) ∧
    segments_stream loads ["data: \x7b\"a\":1\x7d", "", "data: \x7b\"a\":2\x7d"]
      = [loads "\x7b\"a\":1\x7d", loads "\x7b\"a\":2\x7d"] := by
  constructor
  · induction lines with
    | nil => rfl
    | cons c cs ih =>
        by_cases hc : c.data = []
        · simpa [segments_stream, List.filterMap_cons, List.filter_cons, hc]
            using ih
        · simpa [segments_stream, List.filterMap_cons, List.filter_cons, hc]
            using ih
  · rfl

/- ### Claim C2: bounded retry executes exactly `attempts` times and
returns the last result -/

/-- C2: with a retry policy of 3 attempts whose retriable set always
matches the wrapped operation's result status code, the orchestrator
built from `_retry_args` executes the operation exactly 3 times and
returns the third attempt's result (no retry-exhaustion wrapper). -/
theorem C2_retry_bound (o : HttpRetryOptionsM) (op : Nat → ResponseM)
    (hatt : o.attempts = some 3)
    (hmatch : ∀ n, (py_or_codes o.http_status_codes
      RETRY_HTTP_STATUS_CODES).contains (op n).status_code = true) :
    client_request (some o) op = (3, .returned (op 3)) := by
  have hm : ∀ n, (op n).status_code ∈
      py_or_codes o.http_status_codes RETRY_HTTP_STATUS_CODES :=
    fun n => by simpa using hmatch n
  simp [client_request, retry_args, hatt, py_or_nat, tenacity_run,
    tenacity_attempts, hm 1, hm 2, hm 3]

/-- Witness for C2: a policy of 3 attempts with the default retriable
codes, against an operation that always answers 503. -/
theorem C2_retry_bound_witness :
    client_request (some { attempts := some 3 }) (fun _ => ⟨503⟩)
      = (3, .returned ⟨503⟩) :=
  C2_retry_bound { attempts := some 3 } (fun _ => ⟨503⟩) rfl (fun _ => rfl)

/- ### Claim C8: mutually exclusive constructor inputs fail at
construction time -/

/-- C8: constructing a client with both project (or location) and an
API key explicitly set, or with both credentials and an API key
explicitly set, yields a configuration error synchronously — for every
environment, before any ambient credential discovery (`needs_adc`) and
hence before any network call. -/
theorem C8_mutually_exclusive_construction (v : String)
    (vertexai_arg : Option Bool) (api_key_arg : Option String)
    (credentials_arg : Bool) (project_arg location_arg : Option String)
    (http_options_arg : Option HttpOptionsM) (env : EnvVars)
    (h : (((py_truthy project_arg || py_truthy location_arg) && py_truthy api_key_arg)
          || (credentials_arg && py_truthy api_key_arg)) = true) :
    (init_client v vertexai_arg api_key_arg credentials_arg project_arg
        location_arg http_options_arg env = .error .project_api_key_exclusive) ∨
    (init_client v vertexai_arg api_key_arg credentials_arg project_arg
        location_arg http_options_arg env = .error .credentials_api_key_exclusive) := by
  by_cases h1 : ((py_truthy project_arg || py_truthy location_arg) &&
      py_truthy api_key_arg) = true
  · left
    simp [init_client, h1]
  · right
    have h2 : (credentials_arg && py_truthy api_key_arg) = true := by
      have hsplit : (((py_truthy project_arg || py_truthy location_arg) &&
          py_truthy api_key_arg) = true) ∨
          ((credentials_arg && py_truthy api_key_arg) = true) := by
        simpa using h
      rcases hsplit with hc | hc
      · exact absurd hc h1
      · exact hc
    simp [init_client, h1, h2]

/-- Witness for C8: explicit `project="p"` together with explicit
`api_key="k"` is rejected with the project/API-key exclusivity error. -/
theorem C8_mutually_exclusive_construction_witness :
    (init_client "ver" none (some "k") false (some "p") none none {}
        = .error .project_api_key_exclusive) ∨
    (init_client "ver" none (some "k") false (some "p") none none {}
        = .error .credentials_api_key_exclusive) :=
  C8_mutually_exclusive_construction "ver" none (some "k") false (some "p")
    none none {} (by decide)

/- ### Claim C9: every constructed HttpResponse reports status 200 -/

/-- Any `ok` outcome of the upload loop carries a response built by the
`HttpResponse` constructor, hence with `status_code = 200`. -/
theorem upload_loop_ok_status (cl us : Nat) (file : List Nat) (t : Option Nat) :
    ∀ (fuel off : Nat) (rs : List UploadResp) (r : HttpResponseM),
      (upload_loop cl us file t fuel off rs).2 = .ok r → r.status_code = 200 := by
  intro fuel
  induction fuel with
  | zero =>
      intro off rs r h
      simp [upload_loop] at h
  | succ n ih =>
      intro off rs r h
      cases hir : upload_inner_retry MAX_RETRY_COUNT rs with
      | none => simp [upload_loop, hir] at h
      | some val =>
          obtain ⟨resp, rem, k⟩ := val
          simp only [upload_loop, hir] at h
          split at h
          · split at h
            · simp only [UploadOutcome.ok.injEq] at h
              subst h
              rfl
            · simp at h
          · split at h
            · simp at h
            · exact ih _ _ _ (by simpa using h)

/-- The simulated server of the spec's two-chunk scenario: first POST
answered `active`, second answered `final`. -/
def upload_active_resp : UploadResp :=
  { headers := [("x-goog-upload-status", "active")], text := "r1" }

/-- Second response of the two-chunk scenario. -/
def upload_final_resp : UploadResp :=
  { headers := [("x-goog-upload-status", "final")], text := "r2" }

/-- C9: every `HttpResponse` object this module constructs has
`status_code = 200` — the constructor hard-codes it and takes no status
argument — and in particular the response returned by a successful
`upload_file`/`_upload_fd` call reports status 200 regardless of the
server's actual wire status. -/
theorem C9_http_response_status_always_200 :
    (∀ (h : List (String × String)) (rs : Option (List String))
        (bs : Option (List String)),
        (HttpResponse_init h rs bs).status_code = 200) ∧
    (∀ (cl us : Nat) (file : List Nat) (t : Option Nat)
        (rs : List UploadResp) (tr : List ChunkEvent) (r : HttpResponseM),
        upload_fd cl us file t rs = (tr, .ok r) → r.status_code = 200) := by
  constructor
  · intro h rs bs
    rfl
  · intro cl us file t rs tr r h
    have h2 : (upload_fd cl us file t rs).2 = .ok r := by rw [h]
    exact upload_loop_ok_status cl us file t (rs.length + 1) 0 rs r h2

/-- Witness for C9: the two-chunk upload scenario succeeds and its
returned response reports status 200. -/
theorem C9_http_response_status_always_200_witness :
    (HttpResponse_init [("x-goog-upload-status", "final")] (some ["r2"])
      none).status_code = 200 :=
  C9_http_response_status_always_200.2 6 10 (List.range 10) none
    [upload_active_resp, upload_final_resp]
    ((upload_fd 6 10 (List.range 10) none
      [upload_active_resp, upload_final_resp]).1)
    (HttpResponse_init [("x-goog-upload-status", "final")] (some ["r2"]) none)
    (by decide)

/- ### Claim C1: the resumable upload state machine -/

/-- Installing the server-timeout header never disturbs other keys. -/
theorem populate_preserves (hs : List (String × String)) (t : Option Nat)
    (k : String) (hk : k ≠ "X-Server-Timeout") :
    dict_get (populate_server_timeout_header hs t) k = dict_get hs k := by
  unfold populate_server_timeout_header
  cases t with
  | none => rfl
  | some ms =>
      by_cases hhas : dict_has hs "X-Server-Timeout"
      · simp [hhas]
      · simp [hhas, dict_get_set, Ne.symm hk]

/-- The shape the claim requires of the POST trace, starting from a
given offset: each chunk POST carries `X-Goog-Upload-Offset` equal to
the current offset and the finalize command exactly when
`offset + chunk byte count >= upload_size`, and the offset advances by
the chunk's byte count. -/
def events_chain (upload_size : Nat) : Nat → List ChunkEvent → Prop
  | _, [] => True
  | offset, e :: es =>
      e.offset = offset ∧
      e.command = (if upload_size ≤ e.content_length + offset then
        "upload, finalize" else "upload") ∧
      dict_get e.headers "X-Goog-Upload-Command" = some e.command ∧
      dict_get e.headers "X-Goog-Upload-Offset" = some (toString offset) ∧
      dict_get e.headers "Content-Length" = some (toString e.content_length) ∧
      events_chain upload_size (offset + e.content_length) es

/-- Every trace the upload loop produces satisfies the chain shape. -/
theorem upload_loop_chain (cl us : Nat) (file : List Nat) (t : Option Nat) :
    ∀ (fuel off : Nat) (rs : List UploadResp),
      events_chain us off (upload_loop cl us file t fuel off rs).1 := by
  intro fuel
  induction fuel with
  | zero =>
      intro off rs
      simp [upload_loop, events_chain]
  | succ n ih =>
      intro off rs
      cases hir : upload_inner_retry MAX_RETRY_COUNT rs with
      | none =>
          simp only [upload_loop, hir]
          exact ⟨rfl, rfl,
            by rw [populate_preserves _ _ _ (by decide)]; simp [dict_get],
            by rw [populate_preserves _ _ _ (by decide)]; simp [dict_get],
            by rw [populate_preserves _ _ _ (by decide)]; simp [dict_get],
            trivial⟩
      | some val =>
          obtain ⟨resp, rem, k⟩ := val
          simp only [upload_loop, hir]
          split
          · split
            · exact ⟨rfl, rfl,
                by rw [populate_preserves _ _ _ (by decide)]; simp [dict_get],
                by rw [populate_preserves _ _ _ (by decide)]; simp [dict_get],
                by rw [populate_preserves _ _ _ (by decide)]; simp [dict_get],
                trivial⟩
            · exact ⟨rfl, rfl,
                by rw [populate_preserves _ _ _ (by decide)]; simp [dict_get],
                by rw [populate_preserves _ _ _ (by decide)]; simp [dict_get],
                by rw [populate_preserves _ _ _ (by decide)]; simp [dict_get],
                trivial⟩
          · split
            · exact ⟨rfl, rfl,
                by rw [populate_preserves _ _ _ (by decide)]; simp [dict_get],
                by rw [populate_preserves _ _ _ (by decide)]; simp [dict_get],
                by rw [populate_preserves _ _ _ (by decide)]; simp [dict_get],
                trivial⟩
            · exact ⟨rfl, rfl,
                by rw [populate_preserves _ _ _ (by decide)]; simp [dict_get],
                by rw [populate_preserves _ _ _ (by decide)]; simp [dict_get],
                by rw [populate_preserves _ _ _ (by decide)]; simp [dict_get],
                ih _ _⟩

/-- The status header of the last response in a POST trace. -/
def last_status_of (tr : List ChunkEvent) : Option (Option String) :=
  tr.getLast?.map ChunkEvent.last_status

/-- With fuel left, the upload loop always POSTs at least one chunk. -/
theorem upload_loop_trace_ne_nil (cl us : Nat) (file : List Nat)
    (t : Option Nat) (n off : Nat) (rs : List UploadResp) (hn : n ≠ 0) :
    (upload_loop cl us file t n off rs).1 ≠ [] := by
  cases n with
  | zero => exact absurd rfl hn
  | succ m =>
      cases hir : upload_inner_retry MAX_RETRY_COUNT rs with
      | none => simp [upload_loop, hir]
      | some val =>
          obtain ⟨resp, rem, k⟩ := val
          simp only [upload_loop, hir]
          split
          · split <;> simp
          · split <;> simp

/-- Dropping the head of a trace keeps the last status when a tail
remains. -/
theorem last_status_of_cons (e : ChunkEvent) (l : List ChunkEvent)
    (h : l ≠ []) : last_status_of (e :: l) = last_status_of l := by
  cases l with
  | nil => exact absurd rfl h
  | cons a l' => simp [last_status_of]

/-- The upload loop ends in an `ok` outcome exactly when the last POST
of its trace was answered with upload status `final`. -/
theorem upload_loop_ok_iff (cl us : Nat) (file : List Nat) (t : Option Nat) :
    ∀ (fuel off : Nat) (rs : List UploadResp),
      (∃ r, (upload_loop cl us file t fuel off rs).2 = .ok r) ↔
        last_status_of (upload_loop cl us file t fuel off rs).1
          = some (some "final") := by
  intro fuel
  induction fuel with
  | zero =>
      intro off rs
      simp [upload_loop, last_status_of]
  | succ n ih =>
      intro off rs
      cases hir : upload_inner_retry MAX_RETRY_COUNT rs with
      | none => simp [upload_loop, hir, last_status_of]
      | some val =>
          obtain ⟨resp, rem, k⟩ := val
          simp only [upload_loop, hir]
          split
          · rename_i hact
            split
            · rename_i hfin
              simp [last_status_of, hfin]
            · rename_i hfin
              simp [last_status_of, hfin]
          · rename_i hact
            have heq : upload_status resp = some "active" := not_not.mp hact
            split
            · rename_i hsz
              simp [last_status_of, heq]
            · rename_i hsz
              cases n with
              | zero =>
                  simp [upload_loop, last_status_of, heq]
              | succ m =>
                  have hne := upload_loop_trace_ne_nil cl us file t (m + 1)
                    (off + ((file.drop off).take cl).length) rem (by simp)
                  rw [last_status_of_cons _ _ hne]
                  exact ih _ _

/-- The upload loop raises the protocol-violation `ValueError` exactly
when the last POST of its trace was answered `active` although the
advanced offset has reached the declared upload size. -/
theorem upload_loop_pv_iff (cl us : Nat) (file : List Nat) (t : Option Nat) :
    ∀ (fuel off : Nat) (rs : List UploadResp),
      (upload_loop cl us file t fuel off rs).2 = .protocol_violation ↔
        (∃ e, (upload_loop cl us file t fuel off rs).1.getLast? = some e ∧
          e.last_status = some "active" ∧ us ≤ e.offset + e.content_length) := by
  intro fuel
  induction fuel with
  | zero =>
      intro off rs
      simp [upload_loop]
  | succ n ih =>
      intro off rs
      cases hir : upload_inner_retry MAX_RETRY_COUNT rs with
      | none => simp [upload_loop, hir]
      | some val =>
          obtain ⟨resp, rem, k⟩ := val
          simp only [upload_loop, hir]
          split
          · rename_i hact
            split
            · rename_i hfin
              simp [hact]
            · rename_i hfin
              simp [hact]
          · rename_i hact
            have heq : upload_status resp = some "active" := not_not.mp hact
            split
            · rename_i hsz
              simp [heq]
              simpa using hsz
            · rename_i hsz
              cases n with
              | zero =>
                  simp [upload_loop, heq]
                  simpa using hsz
              | succ m =>
                  have hne := upload_loop_trace_ne_nil cl us file t (m + 1)
                    (off + ((file.drop off).take cl).length) rem (by simp)
                  have hcons : ∀ (e : ChunkEvent) (l : List ChunkEvent),
                      l ≠ [] → (e :: l).getLast? = l.getLast? := by
                    intro e l hl
                    cases l with
                    | nil => exact absurd rfl hl
                    | cons a l' => simp
                  rw [hcons _ _ hne]
                  exact ih _ _

/-- C1: the resumable upload drives each chunk POST with
`X-Goog-Upload-Offset` equal to the current offset and the
`upload, finalize` command exactly when `offset + chunk_size >=
upload_size`, advances the offset by each chunk's byte count, raises
the protocol-violation error exactly when a response still reports
`active` once the offset has reached the upload size, returns
successfully exactly when the final response's status header is
`final`; and on a size-10 file with chunk size 6 against a server
answering `active` then `final`, exactly two POSTs occur, at offsets 0
and 6, with success only after the second. -/
theorem C1_upload_state_machine :
    (∀ (cl us : Nat) (file : List Nat) (t : Option Nat) (fuel off : Nat)
        (rs : List UploadResp),
      events_chain us off (upload_loop cl us file t fuel off rs).1) ∧
    (∀ (cl us : Nat) (file : List Nat) (t : Option Nat) (fuel off : Nat)
        (rs : List UploadResp),
      (∃ r, (upload_loop cl us file t fuel off rs).2 = .ok r) ↔
        last_status_of (upload_loop cl us file t fuel off rs).1
          = some (some "final")) ∧
    (∀ (cl us : Nat) (file : List Nat) (t : Option Nat) (fuel off : Nat)
        (rs : List UploadResp),
      (upload_loop cl us file t fuel off rs).2 = .protocol_violation ↔
        (∃ e, (upload_loop cl us file t fuel off rs).1.getLast? = some e ∧
          e.last_status = some "active" ∧ us ≤ e.offset + e.content_length)) ∧
    upload_fd 6 10 (List.range 10) none [upload_active_resp, upload_final_resp]
      = ([{ offset := 0, command := "upload", content_length := 6,
            headers := [("X-Goog-Upload-Command", "upload"),
                        ("X-Goog-Upload-Offset", "0"), ("Content-Length", "6")],
            attempts := 1, last_status := some "active" },
          { offset := 6, command := "upload, finalize", content_length := 4,
            headers := [("X-Goog-Upload-Command", "upload, finalize"),
                        ("X-Goog-Upload-Offset", "6"), ("Content-Length", "4")],
            attempts := 1, last_status := some "final" }],
         .ok (HttpResponse_init [("x-goog-upload-status", "final")]
           (some ["r2"]) none)) :=
  ⟨fun cl us file t fuel off rs => upload_loop_chain cl us file t fuel off rs,
   fun cl us file t fuel off rs => upload_loop_ok_iff cl us file t fuel off rs,
   fun cl us file t fuel off rs => upload_loop_pv_iff cl us file t fuel off rs,
   by decide⟩

/- ### Claim C3: option merging is override-wins per key, field by
field -/

/-- The telemetry append only touches the `user-agent` and
`x-goog-api-client` keys. -/
theorem append_version_preserves (v : String) (hs : List (String × String))
    (k : String) (h1 : k ≠ "user-agent") (h2 : k ≠ "x-goog-api-client") :
    dict_get (append_library_version_headers v hs) k = dict_get hs k := by
  have kua : ¬("user-agent" = k) := fun hh => h1 hh.symm
  have kxc : ¬("x-goog-api-client" = k) := fun hh => h2 hh.symm
  unfold append_library_version_headers
  cases hua : dict_get hs "user-agent" with
  | some ua =>
      by_cases hc1 : str_contains_sub ua v
      · cases hxc : dict_get hs "x-goog-api-client" with
        | some xc =>
            by_cases hc2 : str_contains_sub xc v
            · simp [hua, hc1, hxc, hc2]
            · simp [hua, hc1, hxc, hc2, dict_get_set, kxc]
        | none => simp [hua, hc1, hxc, dict_get_set, kxc]
      · have hxc' : dict_get (dict_set hs "user-agent" (v ++ " " ++ ua))
            "x-goog-api-client" = dict_get hs "x-goog-api-client" := by
          rw [dict_get_set]
          simp
        cases hxc : dict_get hs "x-goog-api-client" with
        | some xc =>
            by_cases hc2 : str_contains_sub xc v
            · simp [hua, hc1, hxc', hxc, hc2, dict_get_set, kua]
            · simp [hua, hc1, hxc', hxc, hc2, dict_get_set, kua, kxc]
        | none => simp [hua, hc1, hxc', hxc, dict_get_set, kua, kxc]
  | none =>
      have hxc' : dict_get (dict_set hs "user-agent" v) "x-goog-api-client"
          = dict_get hs "x-goog-api-client" := by
        rw [dict_get_set]
        simp
      cases hxc : dict_get hs "x-goog-api-client" with
      | some xc =>
          by_cases hc2 : str_contains_sub xc v
          · simp [hua, hxc', hxc, hc2, dict_get_set, kua]
          · simp [hua, hxc', hxc, hc2, dict_get_set, kua, kxc]
      | none => simp [hua, hxc', hxc, dict_get_set, kua, kxc]

/-- C3 counterexample: on base headers `{a:1, b:2}` and override
headers `{b:3, c:4}`, `_patch_http_options` does not return exactly
`{a:1, b:3, c:4}` — the telemetry `user-agent` and `x-goog-api-client`
headers are appended after the merge. -/
theorem C3_counterexample_exact_merge :
    (patch_http_options "google-genai-sdk/0.0.0 gl-python/0.0.0"
        { headers := some [("a", "1"), ("b", "2")] }
        { headers := some [("b", "3"), ("c", "4")] }).headers
      ≠ some [("a", "1"), ("b", "3"), ("c", "4")] := by decide

/-- C3 (amended): `_patch_http_options` merges the header maps key-wise
with the override winning per key — on every key other than the two
telemetry keys the result reads the override's value when present and
the base's value otherwise — every non-header field takes the
override's value when non-None and the base's otherwise, field by
field; and on base headers `{a:1,b:2}` and override `{b:3,c:4}` the
result is exactly `{a:1,b:3,c:4}` followed by the two appended
telemetry headers. -/
theorem C3_merge_override_wins (v : String)
    (options patch_options : HttpOptionsM) (k : String)
    (hnodup : ((patch_options.headers.getD []).map Prod.fst).Nodup)
    (h1 : k ≠ "user-agent") (h2 : k ≠ "x-goog-api-client") :
    (dict_get ((patch_http_options v options patch_options).headers.getD []) k
      = (dict_get (patch_options.headers.getD []) k).orElse
          (fun _ => dict_get (options.headers.getD []) k)) ∧
    ((patch_http_options v options patch_options).base_url
      = (patch_options.base_url).orElse (fun _ => options.base_url)) ∧
    ((patch_http_options v options patch_options).api_version
      = (patch_options.api_version).orElse (fun _ => options.api_version)) ∧
    ((patch_http_options v options patch_options).timeout
      = (patch_options.timeout).orElse (fun _ => options.timeout)) ∧
    ((patch_http_options v options patch_options).client_args
      = (patch_options.client_args).orElse (fun _ => options.client_args)) ∧
    ((patch_http_options v options patch_options).async_client_args
      = (patch_options.async_client_args).orElse
          (fun _ => options.async_client_args)) ∧
    ((patch_http_options v options patch_options).extra_body
      = (patch_options.extra_body).orElse (fun _ => options.extra_body)) ∧
    ((patch_http_options v options patch_options).retry_options
      = (patch_options.retry_options).orElse (fun _ => options.retry_options)) ∧
    (patch_http_options "ver" { headers := some [("a", "1"), ("b", "2")] }
        { headers := some [("b", "3"), ("c", "4")] }).headers
      = some [("a", "1"), ("b", "3"), ("c", "4"),
              ("user-agent", "ver"), ("x-goog-api-client", "ver")] := by
  refine ⟨?_, rfl, rfl, rfl, rfl, rfl, rfl, rfl, by decide⟩
  simp only [patch_http_options, Option.getD_some]
  rw [append_version_preserves _ _ _ h1 h2, dict_get_merge _ _ _ hnodup]

/-- Witness for C3 (amended): the concrete merge read back at key
`"a"`. -/
theorem C3_merge_override_wins_witness :
    (dict_get (((patch_http_options "ver"
        { headers := some [("a", "1"), ("b", "2")] }
        { headers := some [("b", "3"), ("c", "4")] }).headers).getD []) "a"
      = (dict_get ([("b", "3"), ("c", "4")] : List (String × String)) "a").orElse
          (fun _ => dict_get ([("a", "1"), ("b", "2")] : List (String × String)) "a")) := by
  have h := C3_merge_override_wins "ver"
    { headers := some [("a", "1"), ("b", "2")] }
    { headers := some [("b", "3"), ("c", "4")] } "a"
    (by decide) (by decide) (by decide)
  exact h.1

/- ### Claim C4: URL joining places exactly one slash at the boundary -/

/-- Lemma: `splitScheme` finds the first `"://"` when the scheme part holds no
colon. -/
theorem splitScheme_append (sch rest : List Char) (h : ':' ∉ sch) :
    splitScheme (sch ++ ':' :: '/' :: '/' :: rest) = some (sch, rest) := by
  induction sch with
  | nil => simp [splitScheme]
  | cons c cs ih =>
      have hc : ¬(c = ':') := fun hh => h (by simp [hh])
      have ih' := ih (fun hm => h (List.mem_cons_of_mem _ hm))
      simp [splitScheme, if_neg hc, ih']

/-- Lemma: `splitNetloc` splits exactly at the boundary when the netloc holds
no slash and the path is empty or slash-led. -/
theorem splitNetloc_append (n p : List Char) (h : '/' ∉ n)
    (hp : p = [] ∨ ∃ t, p = '/' :: t) :
    splitNetloc (n ++ p) = (n, p) := by
  induction n with
  | nil =>
      rcases hp with rfl | ⟨t, rfl⟩
      · simp [splitNetloc]
      · simp [splitNetloc]
  | cons c cs ih =>
      have hc : ¬(c = '/') := fun hh => h (by simp [hh])
      have ih' := ih (fun hm => h (List.mem_cons_of_mem _ hm))
      simp [splitNetloc, if_neg hc, ih']

/-- Parse/unparse roundtrip on well-formed URL parts: nonempty scheme
without a colon, netloc without a slash, path empty or slash-led. -/
theorem urlparse_urlunparse (u : UrlParts)
    (h0 : u.scheme.data ≠ []) (h1 : ':' ∉ u.scheme.data)
    (h2 : '/' ∉ u.netloc.data)
    (h3 : u.path.data = [] ∨ ∃ t, u.path.data = '/' :: t) :
    urlparse (urlunparse u) = u := by
  unfold urlunparse
  rw [if_neg (by simp [h0])]
  unfold urlparse
  have hdata : (u.scheme ++ "://" ++ u.netloc ++ u.path).data
      = u.scheme.data ++ ':' :: '/' :: '/' :: (u.netloc.data ++ u.path.data) := by
    simp [String.data_append]
  rw [hdata, splitScheme_append _ _ h1]
  simp only [splitNetloc_append _ _ h2 h3]

/-- String append is associative (on the character-list model). -/
theorem str_append_assoc (a b c : String) : a ++ b ++ c = a ++ (b ++ c) := by
  apply String.ext
  simp

/-- A string extended with `"/"` ends with `"/"`. -/
theorem str_ends_with_append_slash (x : String) :
    str_ends_with (x ++ "/") "/" = true := by
  cases x with
  | mk d => simp [str_ends_with, List.isPrefixOf]

/-- Dropping the last character undoes appending `"/"`. -/
theorem str_drop_last_append_slash (x : String) :
    str_drop_last (x ++ "/") = x := by
  cases x with
  | mk d => simp [str_drop_last]

/-- A string preceded by `"/"` starts with `"/"`. -/
theorem str_starts_with_slash_append (p : String) :
    str_starts_with ("/" ++ p) "/" = true := by
  cases p with
  | mk d => simp [str_starts_with, List.isPrefixOf]

/-- Dropping one character undoes prepending `"/"`. -/
theorem str_drop_slash_append (p : String) : str_drop ("/" ++ p) 1 = p := by
  cases p with
  | mk d => simp [str_drop]

/-- Appending to the path of well-formed URL parts appends to the
unparsed URL. -/
theorem urlunparse_path_append (u : UrlParts) (h0 : u.scheme.data ≠ [])
    (x : String) :
    urlunparse { u with path := u.path ++ x } = urlunparse u ++ x := by
  simp [urlunparse, h0, str_append_assoc]

/-- C4: `_join_url_path` joins base URL and path with exactly one slash
at the boundary, dropping no segment, regardless of a trailing slash on
the base or a leading slash on the path: the three concrete spec
instances, and in general all four slash configurations over
well-formed URL parts produce `base ++ "/" ++ path`. -/
theorem C4_join_url_single_slash :
    (join_url_path "https://h/" "/v1/x" = "https://h/v1/x") ∧
    (join_url_path "https://h" "v1/x" = "https://h/v1/x") ∧
    (join_url_path "https://h/" "v1/x" = "https://h/v1/x") ∧
    (∀ (u : UrlParts) (p : String),
      u.scheme.data ≠ [] → ':' ∉ u.scheme.data → '/' ∉ u.netloc.data →
      (u.path.data = [] ∨ ∃ t, u.path.data = '/' :: t) →
      str_ends_with u.path "/" = false → str_starts_with p "/" = false →
      (join_url_path (urlunparse u) p = urlunparse u ++ "/" ++ p ∧
       join_url_path (urlunparse u ++ "/") p = urlunparse u ++ "/" ++ p ∧
       join_url_path (urlunparse u) ("/" ++ p) = urlunparse u ++ "/" ++ p ∧
       join_url_path (urlunparse u ++ "/") ("/" ++ p)
         = urlunparse u ++ "/" ++ p)) := by
  refine ⟨by decide, by decide, by decide, ?_⟩
  intro u p h0 h1 h2 h3 hend hstart
  have hcat : urlunparse u ++ "/" = urlunparse { u with path := u.path ++ "/" } :=
    (urlunparse_path_append u h0 "/").symm
  have h3' : ({ u with path := u.path ++ "/" } : UrlParts).path.data = [] ∨
      ∃ t, ({ u with path := u.path ++ "/" } : UrlParts).path.data = '/' :: t := by
    rcases h3 with hnil | ⟨t, ht⟩
    · right
      exact ⟨[], by simp [hnil]⟩
    · right
      exact ⟨t ++ ['/'], by simp [ht]⟩
  have rt := urlparse_urlunparse u h0 h1 h2 h3
  have rt' := urlparse_urlunparse { u with path := u.path ++ "/" } h0 h1 h2 h3'
  have final : ∀ q : String, urlunparse { u with path := u.path ++ "/" ++ q }
      = urlunparse u ++ "/" ++ q := fun q => by
    rw [str_append_assoc u.path "/" q, urlunparse_path_append u h0 ("/" ++ q),
      str_append_assoc]
  refine ⟨?_, ?_, ?_, ?_⟩
  · simp only [join_url_path, rt, hend, Bool.false_eq_true, if_false, hstart]
    exact final p
  · conv_lhs => rw [hcat]
    simp only [join_url_path, rt', str_ends_with_append_slash, if_true,
      str_drop_last_append_slash, hstart, Bool.false_eq_true, if_false]
    exact final p
  · simp only [join_url_path, rt, hend, Bool.false_eq_true, if_false,
      str_starts_with_slash_append, if_true, str_drop_slash_append]
    exact final p
  · conv_lhs => rw [hcat]
    simp only [join_url_path, rt', str_ends_with_append_slash, if_true,
      str_drop_last_append_slash, str_starts_with_slash_append,
      str_drop_slash_append]
    exact final p

/-- Witness for C4's general part: the slash-invariance equations at
the concrete base `https://h` with path `v1/x`. -/
theorem C4_join_url_single_slash_witness :
    join_url_path (urlunparse ⟨"https", "h", ""⟩) "v1/x"
        = urlunparse ⟨"https", "h", ""⟩ ++ "/" ++ "v1/x" ∧
    join_url_path (urlunparse ⟨"https", "h", ""⟩ ++ "/") "v1/x"
        = urlunparse ⟨"https", "h", ""⟩ ++ "/" ++ "v1/x" ∧
    join_url_path (urlunparse ⟨"https", "h", ""⟩) ("/" ++ "v1/x")
        = urlunparse ⟨"https", "h", ""⟩ ++ "/" ++ "v1/x" ∧
    join_url_path (urlunparse ⟨"https", "h", ""⟩ ++ "/") ("/" ++ "v1/x")
        = urlunparse ⟨"https", "h", ""⟩ ++ "/" ++ "v1/x" :=
  C4_join_url_single_slash.2.2.2 ⟨"https", "h", ""⟩ "v1/x" (by decide)
    (by decide) (by decide) (Or.inl (by decide)) (by decide) (by decide)

/- ### Claim C7: ephemeral-token API keys are rejected pre-flight -/

/-- A client whose API key is an ephemeral token, with the public
endpoint configured, as the constructor would build it. -/
def eph_client : ClientState :=
  { vertexai := false
    api_key := some "auth_tokens/abc"
    project := none
    location := none
    http_options :=
      { base_url := some "https://generativelanguage.googleapis.com/"
        api_version := some "v1beta"
        headers := some [("Content-Type", "application/json")] } }

/-- C7 counterexample: with an ephemeral-token API key but a per-call
override that blanks the base URL, `_build_request` raises the
missing-base-URL `ValueError` (line 792), not
`EphemeralTokenAPIKeyError` — the base-URL check precedes the
ephemeral-token check (line 809). -/
theorem C7_counterexample_base_url_first :
    (build_request "ver" eph_client "post" "models/gen" []
        (some { base_url := some "" })).1 = .error .base_url_missing ∧
    (build_request "ver" eph_client "post" "models/gen" []
        (some { base_url := some "" })).1 ≠ .error .ephemeral_token := by
  constructor
  · rfl
  · rw [show (build_request "ver" eph_client "post" "models/gen" []
        (some { base_url := some "" })).1 = .error .base_url_missing from rfl]
    simp

/-- C7 (amended): whenever the client's API key starts with the
recognized ephemeral-token prefix `auth_tokens/` and the effective base
URL is non-empty (as client construction guarantees), `_build_request`
fails with the dedicated `EphemeralTokenAPIKeyError` — before any
network request, since `_build_request` performs none. -/
theorem C7_ephemeral_token_rejected (v : String) (client : ClientState)
    (http_method path : String) (request_dict : List (String × JVal))
    (http_options : Option HttpOptionsM)
    (hkey : py_truthy client.api_key = true)
    (heph : str_starts_with (client.api_key.getD "") "auth_tokens/" = true)
    (hbase : py_truthy (match http_options with
        | some o => patch_http_options v client.http_options o
        | none => client.http_options).base_url = true) :
    (build_request v client http_method path request_dict http_options).1
      = .error .ephemeral_token := by
  simp only [build_request, hbase, hkey, heph, Bool.not_true, Bool.false_eq_true,
    if_false, Bool.and_self, if_true]

/-- Witness for C7 (amended): the ephemeral-token client with its
constructor-set base URL is rejected with the dedicated error. -/
theorem C7_ephemeral_token_rejected_witness :
    (build_request "ver" eph_client "post" "models/gen" [] none).1
      = .error .ephemeral_token :=
  C7_ephemeral_token_rejected "ver" eph_client "post" "models/gen" [] none
    (by decide) (by decide) (by decide)

/- ### Claim C10: `_build_request` mutates the caller's dict in place -/

/-- Deleting keys by predicate leaves other keys' lookups unchanged. -/
theorem dict_get_delete_keys (d : List (String × α)) (p : String → Bool)
    (k : String) (h : p k = false) :
    dict_get (dict_delete_keys d p) k = dict_get d k := by
  induction d with
  | nil => rfl
  | cons hd tl ih =>
      obtain ⟨k', v⟩ := hd
      by_cases hk : k' = k
      · subst hk
        simp [dict_delete_keys, List.filter_cons, h, dict_get]
      · cases hp : p k' with
        | false =>
            simp only [dict_delete_keys, List.filter_cons, hp, Bool.not_false,
              if_true, dict_get, if_neg hk]
            exact ih
        | true =>
            simp only [dict_delete_keys, List.filter_cons, hp, Bool.not_true,
              Bool.false_eq_true, if_false, dict_get, if_neg hk]
            exact ih

/-- Deep-merging `update` into `target` leaves the lookup of every key
absent from `update` unchanged. -/
theorem dict_get_recursive_update :
    ∀ (u t : List (String × JVal)) (k : String), dict_has u k = false →
      dict_get (recursive_dict_update t u) k = dict_get t k := by
  intro u
  induction u with
  | nil =>
      intro t k h
      simp [recursive_dict_update]
  | cons hd rest ih =>
      intro t k h
      obtain ⟨k', v⟩ := hd
      have hk : ¬(k' = k) := by
        intro hh
        subst hh
        simp [dict_has, dict_get] at h
      have hrest : dict_has rest k = false := by
        simpa [dict_has, dict_get, hk] using h
      have hpres : ∀ (t' : List (String × JVal)) (val : JVal),
          dict_get (dict_set t' k' val) k = dict_get t' k := fun t' val => by
        rw [dict_get_set]
        simp [hk]
      simp only [recursive_dict_update]
      cases hg : dict_get t k' with
      | none =>
          rw [ih _ k hrest]
          exact hpres t v
      | some w =>
          rw [ih _ k hrest]
          exact hpres t _

/-- The effective `extra_body` of a call: the patched options' field
when it is a non-empty dict (Python truthiness), else absent. -/
def effective_extra_body (v : String) (client : ClientState)
    (http_options : Option HttpOptionsM) : Option (List (String × JVal)) :=
  let patched := match http_options with
    | some o => patch_http_options v client.http_options o
    | none => client.http_options
  match patched.extra_body with
  | some eb => if eb.isEmpty then none else some eb
  | none => none

/-- The dict a successful `_build_request` leaves behind: underscore
keys deleted, then the effective `extra_body` deep-merged in. -/
def built_dict (v : String) (client : ClientState)
    (request_dict : List (String × JVal))
    (http_options : Option HttpOptionsM) : List (String × JVal) :=
  match effective_extra_body v client http_options with
  | some eb => recursive_dict_update
      (dict_delete_keys request_dict (fun k => str_starts_with k "_")) eb
  | none => dict_delete_keys request_dict (fun k => str_starts_with k "_")

/-- C10: a successful `_build_request` leaves the caller's
`request_dict` with every underscore-led key deleted and the configured
`extra_body` deep-merged in, leaves every other entry's lookup
unchanged, and the returned request's `data` is that same dict (the
source mutates the one dict in place and stores it in the request). -/
theorem C10_build_request_dict_mutation (v : String) (client : ClientState)
    (http_method path : String) (request_dict : List (String × JVal))
    (http_options : Option HttpOptionsM) (req : HttpRequestM)
    (d' : List (String × JVal))
    (h : build_request v client http_method path request_dict http_options
      = (.ok req, d')) :
    req.data = d' ∧
    d' = built_dict v client request_dict http_options ∧
    (∀ k, str_starts_with k "_" = false →
      (∀ eb, effective_extra_body v client http_options = some eb →
        dict_has eb k = false) →
      dict_get d' k = dict_get request_dict k) := by
  simp only [build_request] at h
  split at h
  · exact absurd h (by simp)
  · rename_i hbase
    split at h
    · rename_i heph
      exact absurd h (by simp)
    · rename_i heph
      split at h
      · rename_i hhdr
        exact absurd h (by simp)
      · rename_i headers hhdr
        simp only [Prod.mk.injEq, Except.ok.injEq] at h
        obtain ⟨hok, hd⟩ := h
        subst hok
        refine ⟨hd, ?_, ?_⟩
        · rw [← hd]
          simp only [built_dict, effective_extra_body]
          cases heb : (match http_options with
              | some o => patch_http_options v client.http_options o
              | none => client.http_options).extra_body with
          | none => rfl
          | some eb =>
              by_cases hemp : eb.isEmpty
              · simp [hemp]
              · simp [hemp]
        · intro k hu hober
          rw [← hd]
          cases heb : (match http_options with
              | some o => patch_http_options v client.http_options o
              | none => client.http_options).extra_body with
          | none =>
              exact dict_get_delete_keys request_dict _ k hu
          | some eb =>
              by_cases hemp : eb.isEmpty
              · simp only [hemp, if_true]
                exact dict_get_delete_keys request_dict _ k hu
              · have hebk : dict_has eb k = false := by
                  apply hober
                  simp only [effective_extra_body, heb]
                  simp [hemp]
                simp only [hemp, Bool.false_eq_true, if_false]
                rw [dict_get_recursive_update eb _ k hebk]
                exact dict_get_delete_keys request_dict _ k hu

/-- A plain API-key client with an `extra_body` configured, for the
C10 witness. -/
def plain_client : ClientState :=
  { vertexai := false
    api_key := some "k"
    project := none
    location := none
    http_options :=
      { base_url := some "https://generativelanguage.googleapis.com/"
        api_version := some "v1beta"
        headers := some [("Content-Type", "application/json")]
        extra_body := some [("b", JVal.num 2)] } }

/-- Witness for C10: a dict with an underscore key and a plain key,
against an `extra_body` of one fresh key — the underscore key is gone,
the extra-body key merged in, the plain key's entry unchanged, and the
request's data equals the resulting dict. -/
theorem C10_build_request_dict_mutation_witness :
    ({ method := "post",
       url := "https://generativelanguage.googleapis.com/v1beta/models/gen",
       headers := [("Content-Type", "application/json")],
       data := [("a", JVal.num 1), ("b", JVal.num 2)],
       timeout := none } : HttpRequestM).data
        = [("a", JVal.num 1), ("b", JVal.num 2)] ∧
    [("a", JVal.num 1), ("b", JVal.num 2)]
      = built_dict "ver" plain_client
          [("_url", JVal.str "u"), ("a", JVal.num 1)] none ∧
    dict_get [("a", JVal.num 1), ("b", JVal.num 2)] "a"
      = dict_get [("_url", JVal.str "u"), ("a", JVal.num 1)] "a" := by
  have h := C10_build_request_dict_mutation "ver" plain_client "post"
    "models/gen" [("_url", JVal.str "u"), ("a", JVal.num 1)] none
    { method := "post"
      url := "https://generativelanguage.googleapis.com/v1beta/models/gen"
      headers := [("Content-Type", "application/json")]
      data := [("a", JVal.num 1), ("b", JVal.num 2)]
      timeout := none }
    [("a", JVal.num 1), ("b", JVal.num 2)] rfl
  refine ⟨h.1, h.2.1, h.2.2 "a" rfl ?_⟩
  intro eb heq
  have h3 : (some [("b", JVal.num 2)] : Option (List (String × JVal)))
      = some eb := by
    rw [← heq]
    rfl
  injection h3 with h4
  rw [← h4]
  rfl

/- ### Claim C6: credential refresh and the two per-path locks -/

/-- Two callers on the same path that both hold their path's lock are
the same caller. -/
theorem lock_of_eq_same {n : Nat} (paths : Fin n → LockKind)
    (s : RefreshState n) (i j : Fin n) (hp : paths i = paths j)
    (hi : lock_of paths s i = some i) (hj : lock_of paths s j = some j) :
    i = j := by
  cases hpi : paths i with
  | sync =>
      have hpj : paths j = .sync := hp.symm.trans hpi
      simp only [lock_of, hpi] at hi
      simp only [lock_of, hpj] at hj
      rw [hi] at hj
      exact Option.some.inj hj
  | async =>
      have hpj : paths j = .async := hp.symm.trans hpi
      simp only [lock_of, hpi] at hi
      simp only [lock_of, hpj] at hj
      rw [hi] at hj
      exact Option.some.inj hj

/-- The initial race state satisfies the invariant (for at least one
caller). -/
theorem refresh_init_inv (n : Nat) (paths : Fin n → LockKind) (hn : 0 < n) :
    RefreshInv paths (refresh_init n) := by
  refine ⟨by simp [refresh_init], by simp [refresh_init], ?_, ?_, ?_, ?_⟩
  · intro i hi
    rcases hi with h | h | h <;> simp [refresh_init] at h
  · intro i hi
    simp [refresh_init] at hi
  · intro i hi
    simp [refresh_init] at hi
  · intro _
    exact ⟨⟨0, hn⟩, by simp [refresh_init]⟩

/-- Every interleaving step of a single-path race preserves the
invariant. -/
theorem refresh_step_inv {n : Nat} {paths : Fin n → LockKind}
    {s s' : RefreshState n} (hpaths : ∀ i j : Fin n, paths i = paths j)
    (inv : RefreshInv paths s) (hstep : RefreshStep n paths s s') :
    RefreshInv paths s' := by
  obtain ⟨c1, c2, c3, c4, c5, c6⟩ := inv
  cases hstep with
  | check_outer_expired i hpath hpc hex =>
      refine ⟨c1, c2, ?_, ?_, ?_, ?_⟩
      · intro j hj
        by_cases hji : j = i
        · subst hji
          simp only [Function.update_same] at hj
          rcases hj with h | h | h <;> exact absurd h (by simp)
        · simp only [Function.update_noteq hji] at hj
          exact c3 j hj
      · intro j hj
        by_cases hji : j = i
        · subst hji
          simp only [Function.update_same] at hj
          exact absurd hj (by simp)
        · simp only [Function.update_noteq hji] at hj
          exact c4 j hj
      · intro j hj
        by_cases hji : j = i
        · subst hji
          simp only [Function.update_same] at hj
          exact absurd hj (by simp)
        · simp only [Function.update_noteq hji] at hj
          exact c5 j hj
      · intro _
        exact ⟨i, by simp [Function.update_same]⟩
  | check_outer_fresh i hpath hpc hex =>
      refine ⟨c1, c2, ?_, ?_, ?_, ?_⟩
      · intro j hj
        by_cases hji : j = i
        · subst hji
          simp only [Function.update_same] at hj
          rcases hj with h | h | h <;> exact absurd h (by simp)
        · simp only [Function.update_noteq hji] at hj
          exact c3 j hj
      · intro j hj
        by_cases hji : j = i
        · subst hji
          simp only [Function.update_same] at hj
          exact absurd hj (by simp)
        · simp only [Function.update_noteq hji] at hj
          exact c4 j hj
      · intro j hj
        by_cases hji : j = i
        · subst hji
          simp only [Function.update_same] at hj
          exact absurd hj (by simp)
        · simp only [Function.update_noteq hji] at hj
          exact c5 j hj
      · intro h
        exact absurd h (by simp [hex])
  | enter_direct i hpath hpc =>
      refine ⟨c1, c2, ?_, ?_, ?_, ?_⟩
      · intro j hj
        by_cases hji : j = i
        · subst hji
          simp only [Function.update_same] at hj
          rcases hj with h | h | h <;> exact absurd h (by simp)
        · simp only [Function.update_noteq hji] at hj
          exact c3 j hj
      · intro j hj
        by_cases hji : j = i
        · subst hji
          simp only [Function.update_same] at hj
          exact absurd hj (by simp)
        · simp only [Function.update_noteq hji] at hj
          exact c4 j hj
      · intro j hj
        by_cases hji : j = i
        · subst hji
          simp only [Function.update_same] at hj
          exact absurd hj (by simp)
        · simp only [Function.update_noteq hji] at hj
          exact c5 j hj
      · intro _
        exact ⟨i, by simp [Function.update_same]⟩
  | acquire_sync i hpath hpc hlock =>
      refine ⟨c1, c2, ?_, ?_, ?_, ?_⟩
      · intro j hj
        by_cases hji : j = i
        · subst hji
          simp [lock_of, hpath]
        · simp only [Function.update_noteq hji] at hj
          have hcj := c3 j hj
          cases hpj : paths j with
          | sync =>
              simp only [lock_of, hpj] at hcj
              rw [hlock] at hcj
              exact absurd hcj (by simp)
          | async =>
              simp only [lock_of, hpj] at hcj ⊢
              exact hcj
      · intro j hj
        by_cases hji : j = i
        · subst hji
          simp only [Function.update_same] at hj
          exact absurd hj (by simp)
        · simp only [Function.update_noteq hji] at hj
          exact c4 j hj
      · intro j hj
        by_cases hji : j = i
        · subst hji
          simp only [Function.update_same] at hj
          exact absurd hj (by simp)
        · simp only [Function.update_noteq hji] at hj
          exact c5 j hj
      · intro _
        exact ⟨i, by simp [Function.update_same]⟩
  | acquire_async i hpath hpc hlock =>
      refine ⟨c1, c2, ?_, ?_, ?_, ?_⟩
      · intro j hj
        by_cases hji : j = i
        · subst hji
          simp [lock_of, hpath]
        · simp only [Function.update_noteq hji] at hj
          have hcj := c3 j hj
          cases hpj : paths j with
          | async =>
              simp only [lock_of, hpj] at hcj
              rw [hlock] at hcj
              exact absurd hcj (by simp)
          | sync =>
              simp only [lock_of, hpj] at hcj ⊢
              exact hcj
      · intro j hj
        by_cases hji : j = i
        · subst hji
          simp only [Function.update_same] at hj
          exact absurd hj (by simp)
        · simp only [Function.update_noteq hji] at hj
          exact c4 j hj
      · intro j hj
        by_cases hji : j = i
        · subst hji
          simp only [Function.update_same] at hj
          exact absurd hj (by simp)
        · simp only [Function.update_noteq hji] at hj
          exact c5 j hj
      · intro _
        exact ⟨i, by simp [Function.update_same]⟩
  | check_inner_expired i hpc hex =>
      refine ⟨c1, c2, ?_, ?_, ?_, ?_⟩
      · intro j hj
        by_cases hji : j = i
        · subst hji
          exact c3 j (Or.inl hpc)
        · simp only [Function.update_noteq hji] at hj
          exact c3 j hj
      · intro j hj
        exact hex
      · intro j hj
        by_cases hji : j = i
        · subst hji
          simp only [Function.update_same] at hj
          exact absurd hj (by simp)
        · simp only [Function.update_noteq hji] at hj
          exact c5 j hj
      · intro _
        exact ⟨i, by simp [Function.update_same]⟩
  | check_inner_fresh i hpc hex =>
      refine ⟨c1, c2, ?_, ?_, ?_, ?_⟩
      · intro j hj
        by_cases hji : j = i
        · subst hji
          exact c3 j (Or.inl hpc)
        · simp only [Function.update_noteq hji] at hj
          exact c3 j hj
      · intro j hj
        by_cases hji : j = i
        · subst hji
          simp only [Function.update_same] at hj
          exact absurd hj (by simp)
        · simp only [Function.update_noteq hji] at hj
          exact c4 j hj
      · intro j hj
        exact hex
      · intro h
        exact absurd h (by simp [hex])
  | do_refresh i hpc =>
      have hexp : s.expired = true := c4 i hpc
      have hcount : s.refresh_count = 0 := c1.mp hexp
      refine ⟨by simp [hcount], by simp [hcount], ?_, ?_, ?_, ?_⟩
      · intro j hj
        by_cases hji : j = i
        · subst hji
          exact c3 j (Or.inr (Or.inl hpc))
        · simp only [Function.update_noteq hji] at hj
          exact c3 j hj
      · intro j hj
        by_cases hji : j = i
        · subst hji
          simp only [Function.update_same] at hj
          exact absurd hj (by simp)
        · simp only [Function.update_noteq hji] at hj
          have hli := c3 i (Or.inr (Or.inl hpc))
          have hlj := c3 j (Or.inr (Or.inl hj))
          exact absurd (lock_of_eq_same paths s i j (hpaths i j) hli hlj)
            (fun hh => hji hh.symm)
      · intro j hj
        rfl
      · intro h
        exact absurd h (by simp)
  | release_sync i hpath hpc =>
      refine ⟨c1, c2, ?_, ?_, ?_, ?_⟩
      · intro j hj
        by_cases hji : j = i
        · subst hji
          simp only [Function.update_same] at hj
          rcases hj with h | h | h <;> exact absurd h (by simp)
        · simp only [Function.update_noteq hji] at hj
          have hli := c3 i (Or.inr (Or.inr hpc))
          have hlj := c3 j hj
          exact absurd (lock_of_eq_same paths s i j (hpaths i j) hli hlj)
            (fun hh => hji hh.symm)
      · intro j hj
        by_cases hji : j = i
        · subst hji
          simp only [Function.update_same] at hj
          exact absurd hj (by simp)
        · simp only [Function.update_noteq hji] at hj
          exact c4 j hj
      · intro j hj
        by_cases hji : j = i
        · subst hji
          simp only [Function.update_same] at hj
          exact absurd hj (by simp)
        · simp only [Function.update_noteq hji] at hj
          exact c5 j hj
      · intro h
        have := c5 i hpc
        exact absurd h (by simp [this])
  | release_async i hpath hpc =>
      refine ⟨c1, c2, ?_, ?_, ?_, ?_⟩
      · intro j hj
        by_cases hji : j = i
        · subst hji
          simp only [Function.update_same] at hj
          rcases hj with h | h | h <;> exact absurd h (by simp)
        · simp only [Function.update_noteq hji] at hj
          have hli := c3 i (Or.inr (Or.inr hpc))
          have hlj := c3 j hj
          exact absurd (lock_of_eq_same paths s i j (hpaths i j) hli hlj)
            (fun hh => hji hh.symm)
      · intro j hj
        by_cases hji : j = i
        · subst hji
          simp only [Function.update_same] at hj
          exact absurd hj (by simp)
        · simp only [Function.update_noteq hji] at hj
          exact c4 j hj
      · intro j hj
        by_cases hji : j = i
        · subst hji
          simp only [Function.update_same] at hj
          exact absurd hj (by simp)
        · simp only [Function.update_noteq hji] at hj
          exact c5 j hj
      · intro h
        have := c5 i hpc
        exact absurd h (by simp [this])

/-- Every reachable state of a single-path race satisfies the
invariant. -/
theorem refresh_reachable_inv (n : Nat) (paths : Fin n → LockKind)
    (hn : 0 < n) (hpaths : ∀ i j : Fin n, paths i = paths j)
    (s : RefreshState n) (h : RefreshReachable n paths s) :
    RefreshInv paths s := by
  induction h with
  | refl => exact refresh_init_inv n paths hn
  | tail hab hbc ih => exact refresh_step_inv hpaths ih hbc

/-- The path assignment of the mixed race: caller 0 invokes the
blocking `_access_token`, caller 1 the suspend-capable
`_async_access_token`. -/
def mixed_paths : Fin 2 → LockKind :=
  fun i => if i = 0 then .sync else .async

/-- The control points of a two-caller state. -/
def dbl_pc (a b : RefresherPc) : Fin 2 → RefresherPc :=
  fun j => if j = 0 then a else b

/-- Updating caller 0's control point. -/
theorem dbl_pc_update_fst (a b x : RefresherPc) :
    Function.update (dbl_pc a b) (0 : Fin 2) x = dbl_pc x b := by
  funext j
  fin_cases j <;> simp [Function.update, dbl_pc]

/-- Updating caller 1's control point. -/
theorem dbl_pc_update_snd (a b x : RefresherPc) :
    Function.update (dbl_pc a b) (1 : Fin 2) x = dbl_pc a x := by
  funext j
  fin_cases j <;> simp [Function.update, dbl_pc]

/-- Updating caller 0's control point in the initial state. -/
theorem start_pc_update_fst (x : RefresherPc) :
    Function.update (fun _ : Fin 2 => RefresherPc.start) (0 : Fin 2) x
      = dbl_pc x .start := by
  funext j
  fin_cases j <;> simp [Function.update, dbl_pc]

/-- The final state of the mixed sync+async race: both callers done,
both locks free, the token fresh — and two underlying refreshes
performed. -/
def refresh_mixed_final : RefreshState 2 :=
  { expired := false, refresh_count := 2, sync_lock := none,
    async_lock := none, pc := dbl_pc .done .done }

/-- C6 counterexample: one `_access_token` caller and one
`_async_access_token` caller racing on an expired token can both pass
their in-lock expiry check — each under its own, independent lock —
and the run completes with two underlying refreshes, not one.  This
refutes the claim for callers spread over both paths. -/
theorem C6_counterexample_mixed_double_refresh :
    RefreshReachable 2 mixed_paths refresh_mixed_final ∧
    refresh_mixed_final.pc 0 = .done ∧
    refresh_mixed_final.pc 1 = .done ∧
    refresh_mixed_final.refresh_count = 2 := by
  refine ⟨?_, by decide, by decide, rfl⟩
  have h1 : RefreshStep 2 mixed_paths (refresh_init 2)
      { expired := true, refresh_count := 0, sync_lock := none,
        async_lock := none, pc := dbl_pc .want_lock .start } := by
    have h := @RefreshStep.enter_direct 2 mixed_paths
      (refresh_init 2) 0 (by decide) rfl
    simpa [refresh_init, start_pc_update_fst] using h
  have h2 : RefreshStep 2 mixed_paths
      ({ expired := true, refresh_count := 0, sync_lock := none,
         async_lock := none, pc := dbl_pc .want_lock .start } : RefreshState 2)
      { expired := true, refresh_count := 0, sync_lock := none,
        async_lock := none, pc := dbl_pc .want_lock .want_lock } := by
    have h := @RefreshStep.check_outer_expired 2 mixed_paths
      { expired := true, refresh_count := 0, sync_lock := none,
        async_lock := none, pc := dbl_pc .want_lock .start }
      1 (by decide) (by decide) rfl
    simpa [dbl_pc_update_snd] using h
  have h3 : RefreshStep 2 mixed_paths
      ({ expired := true, refresh_count := 0, sync_lock := none,
         async_lock := none, pc := dbl_pc .want_lock .want_lock } : RefreshState 2)
      { expired := true, refresh_count := 0, sync_lock := some 0,
        async_lock := none, pc := dbl_pc .locked .want_lock } := by
    have h := @RefreshStep.acquire_sync 2 mixed_paths
      { expired := true, refresh_count := 0, sync_lock := none,
        async_lock := none, pc := dbl_pc .want_lock .want_lock }
      0 (by decide) (by decide) rfl
    simpa [dbl_pc_update_fst] using h
  have h4 : RefreshStep 2 mixed_paths
      ({ expired := true, refresh_count := 0, sync_lock := some 0,
         async_lock := none, pc := dbl_pc .locked .want_lock } : RefreshState 2)
      { expired := true, refresh_count := 0, sync_lock := some 0,
        async_lock := some 1, pc := dbl_pc .locked .locked } := by
    have h := @RefreshStep.acquire_async 2 mixed_paths
      { expired := true, refresh_count := 0, sync_lock := some 0,
        async_lock := none, pc := dbl_pc .locked .want_lock }
      1 (by decide) (by decide) rfl
    simpa [dbl_pc_update_snd] using h
  have h5 : RefreshStep 2 mixed_paths
      ({ expired := true, refresh_count := 0, sync_lock := some 0,
         async_lock := some 1, pc := dbl_pc .locked .locked } : RefreshState 2)
      { expired := true, refresh_count := 0, sync_lock := some 0,
        async_lock := some 1, pc := dbl_pc .will_refresh .locked } := by
    have h := @RefreshStep.check_inner_expired 2 mixed_paths
      { expired := true, refresh_count := 0, sync_lock := some 0,
        async_lock := some 1, pc := dbl_pc .locked .locked }
      0 (by decide) rfl
    simpa [dbl_pc_update_fst] using h
  have h6 : RefreshStep 2 mixed_paths
      ({ expired := true, refresh_count := 0, sync_lock := some 0,
         async_lock := some 1, pc := dbl_pc .will_refresh .locked } : RefreshState 2)
      { expired := true, refresh_count := 0, sync_lock := some 0,
        async_lock := some 1, pc := dbl_pc .will_refresh .will_refresh } := by
    have h := @RefreshStep.check_inner_expired 2 mixed_paths
      { expired := true, refresh_count := 0, sync_lock := some 0,
        async_lock := some 1, pc := dbl_pc .will_refresh .locked }
      1 (by decide) rfl
    simpa [dbl_pc_update_snd] using h
  have h7 : RefreshStep 2 mixed_paths
      ({ expired := true, refresh_count := 0, sync_lock := some 0,
         async_lock := some 1, pc := dbl_pc .will_refresh .will_refresh }
        : RefreshState 2)
      { expired := false, refresh_count := 1, sync_lock := some 0,
        async_lock := some 1, pc := dbl_pc .releasing .will_refresh } := by
    have h := @RefreshStep.do_refresh 2 mixed_paths
      { expired := true, refresh_count := 0, sync_lock := some 0,
        async_lock := some 1, pc := dbl_pc .will_refresh .will_refresh }
      0 (by decide)
    simpa [dbl_pc_update_fst] using h
  have h8 : RefreshStep 2 mixed_paths
      ({ expired := false, refresh_count := 1, sync_lock := some 0,
         async_lock := some 1, pc := dbl_pc .releasing .will_refresh }
        : RefreshState 2)
      { expired := false, refresh_count := 2, sync_lock := some 0,
        async_lock := some 1, pc := dbl_pc .releasing .releasing } := by
    have h := @RefreshStep.do_refresh 2 mixed_paths
      { expired := false, refresh_count := 1, sync_lock := some 0,
        async_lock := some 1, pc := dbl_pc .releasing .will_refresh }
      1 (by decide)
    simpa [dbl_pc_update_snd] using h
  have h9 : RefreshStep 2 mixed_paths
      ({ expired := false, refresh_count := 2, sync_lock := some 0,
         async_lock := some 1, pc := dbl_pc .releasing .releasing }
        : RefreshState 2)
      { expired := false, refresh_count := 2, sync_lock := none,
        async_lock := some 1, pc := dbl_pc .done .releasing } := by
    have h := @RefreshStep.release_sync 2 mixed_paths
      { expired := false, refresh_count := 2, sync_lock := some 0,
        async_lock := some 1, pc := dbl_pc .releasing .releasing }
      0 (by decide) (by decide)
    simpa [dbl_pc_update_fst] using h
  have h10 : RefreshStep 2 mixed_paths
      ({ expired := false, refresh_count := 2, sync_lock := none,
         async_lock := some 1, pc := dbl_pc .done .releasing } : RefreshState 2)
      refresh_mixed_final := by
    have h := @RefreshStep.release_async 2 mixed_paths
      { expired := false, refresh_count := 2, sync_lock := none,
        async_lock := some 1, pc := dbl_pc .done .releasing }
      1 (by decide) (by decide)
    simpa [dbl_pc_update_snd, refresh_mixed_final] using h
  exact Relation.ReflTransGen.head h1 (Relation.ReflTransGen.head h2
    (Relation.ReflTransGen.head h3 (Relation.ReflTransGen.head h4
      (Relation.ReflTransGen.head h5 (Relation.ReflTransGen.head h6
        (Relation.ReflTransGen.head h7 (Relation.ReflTransGen.head h8
          (Relation.ReflTransGen.head h9 (Relation.ReflTransGen.head h10
            Relation.ReflTransGen.refl)))))))))

/-- C6 (amended): for every number `n > 0` of concurrent callers that
all invoke the same token-access operation — all on the blocking
`_access_token` path or all on the suspend-capable
`_async_access_token` path — racing on an expired (or absent) token,
every complete interleaving (all callers finished) performs exactly one
underlying credential refresh, because a caller that acquires its
path's lock re-verifies expiry before refreshing.  (A mixed sync+async
race can refresh twice, since each path has its own lock — see the
counterexample.) -/
theorem C6_single_flight_refresh (n : Nat) (paths : Fin n → LockKind)
    (s : RefreshState n) (hn : 0 < n)
    (hpaths : ∀ i j : Fin n, paths i = paths j)
    (hreach : RefreshReachable n paths s)
    (hdone : ∀ i, s.pc i = .done) :
    s.refresh_count = 1 := by
  obtain ⟨c1, c2, _, _, _, c6⟩ :=
    refresh_reachable_inv n paths hn hpaths s hreach
  cases hexp : s.expired with
  | true =>
      obtain ⟨i, hi⟩ := c6 hexp
      exact absurd (hdone i) hi
  | false =>
      have hne : s.refresh_count ≠ 0 := by
        intro hc
        have hx := c1.mpr hc
        rw [hexp] at hx
        exact Bool.false_ne_true hx
      omega

/-- The final state of a one-caller run of the race. -/
def refresh_demo_final : RefreshState 1 :=
  { expired := false, refresh_count := 1, sync_lock := none,
    async_lock := none, pc := fun _ => .done }

/-- Witness for C6 (amended): a complete single-path (sync) one-caller
interleaving — enter, acquire, in-lock check, refresh, release —
reaches the all-done state and the theorem yields exactly one
refresh. -/
theorem C6_single_flight_refresh_witness :
    refresh_demo_final.refresh_count = 1 := by
  apply C6_single_flight_refresh 1 (fun _ => LockKind.sync)
    refresh_demo_final (by decide) (fun i j => rfl) ?_ (fun i => rfl)
  have upd : ∀ (f : Fin 1 → RefresherPc) (i : Fin 1) (x : RefresherPc),
      Function.update f i x = fun _ => x := by
    intro f i x
    funext j
    have hj : j = i := Fin.ext (by omega)
    rw [hj, Function.update_same]
  have h1 : RefreshStep 1 (fun _ => LockKind.sync) (refresh_init 1)
      { expired := true, refresh_count := 0, sync_lock := none,
        async_lock := none, pc := fun _ => .want_lock } := by
    have h := @RefreshStep.enter_direct 1 (fun _ => LockKind.sync) (refresh_init 1)
      ⟨0, by omega⟩ rfl rfl
    simpa [refresh_init, upd] using h
  have h2 : RefreshStep 1 (fun _ => LockKind.sync)
      ({ expired := true, refresh_count := 0, sync_lock := none,
         async_lock := none, pc := fun _ => .want_lock } : RefreshState 1)
      { expired := true, refresh_count := 0,
        sync_lock := some ⟨0, by omega⟩, async_lock := none,
        pc := fun _ => .locked } := by
    have h := @RefreshStep.acquire_sync 1 (fun _ => LockKind.sync)
      { expired := true, refresh_count := 0, sync_lock := none,
        async_lock := none, pc := fun _ => .want_lock }
      ⟨0, by omega⟩ rfl rfl rfl
    simpa [upd] using h
  have h3 : RefreshStep 1 (fun _ => LockKind.sync)
      ({ expired := true, refresh_count := 0,
         sync_lock := some ⟨0, by omega⟩, async_lock := none,
         pc := fun _ => .locked } : RefreshState 1)
      { expired := true, refresh_count := 0,
        sync_lock := some ⟨0, by omega⟩, async_lock := none,
        pc := fun _ => .will_refresh } := by
    have h := @RefreshStep.check_inner_expired 1 (fun _ => LockKind.sync)
      { expired := true, refresh_count := 0,
        sync_lock := some ⟨0, by omega⟩, async_lock := none,
        pc := fun _ => .locked }
      ⟨0, by omega⟩ rfl rfl
    simpa [upd] using h
  have h4 : RefreshStep 1 (fun _ => LockKind.sync)
      ({ expired := true, refresh_count := 0,
         sync_lock := some ⟨0, by omega⟩, async_lock := none,
         pc := fun _ => .will_refresh } : RefreshState 1)
      { expired := false, refresh_count := 1,
        sync_lock := some ⟨0, by omega⟩, async_lock := none,
        pc := fun _ => .releasing } := by
    have h := @RefreshStep.do_refresh 1 (fun _ => LockKind.sync)
      { expired := true, refresh_count := 0,
        sync_lock := some ⟨0, by omega⟩, async_lock := none,
        pc := fun _ => .will_refresh }
      ⟨0, by omega⟩ rfl
    simpa [upd] using h
  have h5 : RefreshStep 1 (fun _ => LockKind.sync)
      ({ expired := false, refresh_count := 1,
         sync_lock := some ⟨0, by omega⟩, async_lock := none,
         pc := fun _ => .releasing } : RefreshState 1)
      refresh_demo_final := by
    have h := @RefreshStep.release_sync 1 (fun _ => LockKind.sync)
      { expired := false, refresh_count := 1,
        sync_lock := some ⟨0, by omega⟩, async_lock := none,
        pc := fun _ => .releasing }
      ⟨0, by omega⟩ rfl rfl
    simpa [upd, refresh_demo_final] using h
  exact Relation.ReflTransGen.head h1 (Relation.ReflTransGen.head h2
    (Relation.ReflTransGen.head h3 (Relation.ReflTransGen.head h4
      (Relation.ReflTransGen.head h5 Relation.ReflTransGen.refl))))
